import Mathlib

/-!
Shallow embedding of the client-side request Batcher
(`src/yb/client/batcher.cc`) of a sharded SQL/KV database client.

The C++ `Batcher` is event-driven: external completions (tablet lookup done,
transaction ready, RPC done) mutate a shared object under a mutex.  We embed it
as explicit state passing: every C++ method becomes a function
`Batcher → Batcher`.  Callback invocations are recorded in the state
(`invocations`), the stored `flush_callback_` slot is modelled by a `Bool`
(occupied or cleared), and invoking an empty `std::function` (which throws
`bad_function_call` in C++) sets the `bad_function_call` flag.  Session and
transaction notifications are recorded as counters.  Machine pointers used for
identity comparisons (`RemoteTablet*`) are modelled as `Nat` tags.
-/

/-- Status code of a `yb::Status` (only the codes this file constructs). -/
inductive StatusCode where
  | Ok
  | IOError
  | IllegalState
  | InternalError
  | Aborted
  | Combined
deriving DecidableEq

/-- Client error codes relevant to the batcher (`client_error.h`). -/
inductive ClientErrorCode where
  | kTablePartitionListIsStale
  | kTablePartitionListVersionDoesNotMatch
deriving DecidableEq

/-- Model of `yb::Status`: a code, a message, and an optional embedded client
error code (`ClientError(status)`). -/
structure Status where
  code : StatusCode
  msg : String
  clientError : Option ClientErrorCode := none
deriving DecidableEq

/-- `Status::ok()`. -/
def Status.isOk (s : Status) : Bool := s.code = StatusCode.Ok

def okStatus : Status := { code := StatusCode.Ok, msg := "" }

/-- `Batcher::kErrorReachingOutToTServersMsg` (batcher.cc:99). -/
def kErrorReachingOutToTServersMsg : String :=
  "Errors occurred while reaching out to the tablet servers"

/-- `kGeneralErrorStatus = STATUS(IOError, Batcher::kErrorReachingOutToTServersMsg)`
(batcher.cc:104). -/
def kGeneralErrorStatus : Status :=
  { code := StatusCode.IOError, msg := kErrorReachingOutToTServersMsg }

/-- Operation kinds (`OpGroup` in async_rpc.h, declared in this order). -/
inductive OpGroup where
  | kWrite
  | kLeaderRead
  | kConsistentPrefixRead
deriving DecidableEq

/-- Numeric value of the `OpGroup` enum, used by the sort comparator's
`lgroup < rgroup`. -/
def OpGroup.toNat : OpGroup → Nat
  | OpGroup.kWrite => 0
  | OpGroup.kLeaderRead => 1
  | OpGroup.kConsistentPrefixRead => 2

/-- Encoded partition key: opaque bytes. -/
abbrev PartitionKey : Type := List Nat

deriving instance DecidableEq for Except

/-- Byte-string comparison, `a < b` lexicographically (the order used by
`Partition::ContainsKey` on encoded keys). -/
def keyLt : List Nat → List Nat → Bool
  | [], [] => false
  | [], _ :: _ => true
  | _ :: _, [] => false
  | a :: as, b :: bs => if a = b then keyLt as bs else decide (a < b)

def keyLe (a b : List Nat) : Bool := !keyLt b a

/-- Model of a `RemoteTablet`.  `ptr` stands for the C++ object's address,
used only for identity comparison in the sort comparator.  The partition is
modelled by its bounds, as in `Partition` (start inclusive, end exclusive,
empty end meaning unbounded); `Partition::ContainsKey` itself is not among the
provided sources, so the bounds semantics follows the spec's description of a
contiguous key-range shard. -/
structure Tablet where
  ptr : Nat
  partition_list_version : Nat
  partition_start : List Nat := []
  partition_end : List Nat := []
deriving DecidableEq

/-- `partition.ContainsKey(partition_key)`. -/
def tabletContainsKey (t : Tablet) (k : List Nat) : Bool :=
  keyLe t.partition_start k && (t.partition_end.isEmpty || keyLt k t.partition_end)

/-- `PartitionSchema::DecodeMultiColumnHashValue`: the first two bytes of the
key, big-endian. -/
def decodeMultiColumnHashValue (k : List Nat) : Nat :=
  (k.headD 0) * 256 + (k.tail.headD 0)

/-- Model of a `YBOperation` (shared user op).  `op_id` stands for the object's
identity (used for error-collector entries), `op_group` for `yb_op->group()`,
`get_partition_key_result` for the outcome of `GetPartitionKey`,
`tablet_hint` for `yb_op->tablet()`. -/
structure YBOp where
  op_id : Nat
  op_group : OpGroup := OpGroup.kWrite
  get_partition_key_result : Except Status (List Nat) := Except.ok []
  is_hash_partitioning : Bool := false
  read_only : Bool := false
  hash_code : Option Nat := none
  partition_list_version : Option Nat := none
  tablet_hint : Option Tablet := none
  namespace_name : String := ""
  table_id : Nat := 0
deriving DecidableEq

/-- `InFlightOp` (in_flight_op.h): per-submitted-operation state. -/
structure InFlightOp where
  yb_op : YBOp
  partition_key : List Nat
  tablet : Option Tablet := none
  error : Status := okStatus
  sequence_number : Nat
deriving DecidableEq

instance : Inhabited InFlightOp :=
  ⟨{ yb_op := { op_id := 0 }, partition_key := [], sequence_number := 0 }⟩

/-- Tablet pointer identity of the op's resolved tablet (`op.tablet.get()`;
`0` stands for `nullptr`). -/
def InFlightOp.tabletPtr (op : InFlightOp) : Nat :=
  match op.tablet with
  | some t => t.ptr
  | none => 0

/-- `it_tablet->partition_list_version()` of the op's resolved tablet. -/
def InFlightOp.tabletListVersion (op : InFlightOp) : Nat :=
  match op.tablet with
  | some t => t.partition_list_version
  | none => 0

/-- `BatcherState` (batcher.h). -/
inductive BatcherState where
  | kGatheringOps
  | kResolvingTablets
  | kTransactionPrepare
  | kTransactionReady
  | kComplete
  | kAborted
deriving DecidableEq

/-- Behaviour of the attached `YBTransaction` towards `Prepare`:
either it is ready at the first `Prepare` call (returns true), or the first
call returns false and the stored continuation is later invoked with the given
status (after which `Prepare` returns true). -/
inductive TxnBehavior where
  | readyNow
  | pending (st : Status)
deriving DecidableEq

/-- One dispatched RPC (`WriteRpc` / `ReadRpc`).  Its ops are the half-open
index range `[rbegin, rend)` of the sorted `ops_queue`, mirroring the iterator
range held by `InFlightOpsGroup`; mutations through `rpc.ops()` reach the
queue. -/
structure Rpc where
  kind : OpGroup
  tabletPtr : Nat
  rbegin : Nat
  rend : Nat
  allow_local : Bool
  need_consistent_read : Bool
deriving DecidableEq

def dummyRpc : Rpc :=
  { kind := OpGroup.kWrite, tabletPtr := 0, rbegin := 0, rend := 0,
    allow_local := false, need_consistent_read := false }

/-- Process-wide test flags consumed by the batcher.
`simulate_lookup_mismatch` stands for one draw of
`RandomActWithProbability(FLAGS_TEST_simulate_tablet_lookup_does_not_match_partition_key_probability)`;
the default probability is 0.0, i.e. `false`. -/
structure Config where
  combine_batcher_errors : Bool := false
  simulate_lookup_mismatch : Bool := false
deriving DecidableEq

/-- The `Batcher` state (batcher.h fields), plus observation fields recording
the externally visible events: `invocations` lists the statuses the user
callback was invoked with, `flush_callback` says whether the callback slot
holds a functor, `bad_function_call` records an invocation of an empty
functor, session/transaction/read-point notifications are counters. -/
structure Batcher where
  state : BatcherState := BatcherState.kGatheringOps
  ops : List YBOp := []
  ops_queue : List InFlightOp := []
  groups : List (Nat × Nat) := []
  rpcs : List Rpc := []
  outstanding_lookups : Nat := 0
  outstanding_rpcs : Nat := 0
  error_collector : List (Nat × Status) := []
  combined_error : Status := okStatus
  flush_callback : Bool := false
  invocations : List Status := []
  bad_function_call : Bool := false
  session_flush_started : Nat := 0
  session_flush_finished : Nat := 0
  transaction : Option TxnBehavior := none
  txn_expected_ops : Option Nat := none
  txn_flushed_count : Nat := 0
  read_point : Bool := false
  clock_updates : Nat := 0
  latest_observed_hybrid_time : Nat := 0
  force_consistent_read : Bool := false
  allow_local_calls_in_curr_thread : Bool := false
  stale_tables : List Nat := []
deriving DecidableEq

/-- `ErrorCollector::CountErrors()`. -/
def Batcher.CountErrors (b : Batcher) : Nat := b.error_collector.length

/-- `Batcher::Run` (batcher.cc:193): invoke `flush_callback_(combined_error_)`
then clear the slot.  Invoking an empty `std::function` throws
`bad_function_call`; we record that in a flag. -/
def Batcher.Run (b : Batcher) : Batcher :=
  if b.flush_callback then
    { b with invocations := b.invocations ++ [b.combined_error], flush_callback := false }
  else
    { b with bad_function_call := true }

/-- `Batcher::RunCallback` (batcher.cc:198): submit `Run` to the client's
callback thread pool, or run inline when submission is impossible.  Either way
`Run` executes exactly once; we model it as the inline call. -/
def Batcher.RunCallback (b : Batcher) : Batcher := Batcher.Run b

/-- `Batcher::FlushFinished` (batcher.cc:170): enter a terminal state, notify
the session, replace an ok combined error by the generic IO error when the
collector is non-empty, and run the callback. -/
def Batcher.FlushFinished (b : Batcher) : Batcher :=
  let b := if b.state = BatcherState.kAborted then b
           else { b with state := BatcherState.kComplete }
  let b := { b with session_flush_finished := b.session_flush_finished + 1 }
  let b := if b.combined_error.isOk = true ∧ b.error_collector.length ≠ 0 then
             { b with combined_error := kGeneralErrorStatus }
           else b
  Batcher.RunCallback b

/-- `Batcher::Abort` (batcher.cc:143): add the status to the error collector
for every queued op, set the combined error and the `kAborted` state, and
proceed to `FlushFinished`. -/
def Batcher.Abort (s : Status) (b : Batcher) : Batcher :=
  let b := { b with
    error_collector :=
      b.error_collector ++ b.ops_queue.map (fun (op : InFlightOp) => (op.yb_op.op_id, s)) }
  let b := { b with combined_error := s, state := BatcherState.kAborted }
  Batcher.FlushFinished b

/-- `Batcher::HasPendingOperations` (batcher.cc:156): `!ops_.empty()`. -/
def Batcher.HasPendingOperations (b : Batcher) : Bool := !b.ops.isEmpty

/-- `Batcher::CountBufferedOperations` (batcher.cc:160). -/
def Batcher.CountBufferedOperations (b : Batcher) : Nat :=
  if b.state = BatcherState.kGatheringOps then b.ops.length else 0

/-- `Batcher::Add` (batcher.cc:281): append in `kGatheringOps`, otherwise log
and ignore. -/
def Batcher.Add (b : Batcher) (op : YBOp) : Batcher :=
  if b.state ≠ BatcherState.kGatheringOps then b
  else { b with ops := b.ops ++ [op] }

/-- `Batcher::Has` (batcher.cc:272): linear membership scan. -/
def Batcher.Has (b : Batcher) (op : YBOp) : Bool := b.ops.any (fun o => decide (o = op))

/-- `Batcher::GetAndClearPendingErrors` (batcher.cc:683). -/
def Batcher.GetAndClearPendingErrors (b : Batcher) : List (Nat × Status) × Batcher :=
  (b.error_collector, { b with error_collector := [] })

/-- `STATUS(Combined, "Multiple failures")` (batcher.cc:306). -/
def combinedStatus : Status := { code := StatusCode.Combined, msg := "Multiple failures" }

/-- `Batcher::CombineError` (batcher.cc:291): mark the table's partition list
stale on the corresponding client error, add the op's error to the collector,
and, under the test flag, fold it into `combined_error_`. -/
def Batcher.CombineError (cfg : Config) (b : Batcher) (op : InFlightOp) : Batcher :=
  let b := if op.error.clientError = some ClientErrorCode.kTablePartitionListIsStale then
             { b with stale_tables := b.stale_tables ++ [op.yb_op.table_id] }
           else b
  let b := { b with error_collector := b.error_collector ++ [(op.yb_op.op_id, op.error)] }
  if cfg.combine_batcher_errors then
    if b.combined_error.isOk then
      { b with combined_error :=
          { op.error with msg := toString op.yb_op.op_id ++ ": " ++ op.error.msg } }
    else if b.combined_error.code ≠ StatusCode.Combined ∧
            b.combined_error.code ≠ op.error.code then
      { b with combined_error := combinedStatus }
    else b
  else b

/-- Replace the element at index `i` (identity when out of range).  Used to
model in-place mutation of one `InFlightOp` in `ops_queue_`. -/
def modifyAt {α : Type} : List α → Nat → (α → α) → List α
  | [], _, _ => []
  | x :: xs, 0, f => f x :: xs
  | x :: xs, n + 1, f => x :: modifyAt xs n f

/-- The partition-key sanity check of `Batcher::CollectOpsErrors`
(batcher.cc:337-369): when the op has a resolved tablet whose partition does
not contain the op's partition key (or the lookup-mismatch simulation fires
for the `yb_test` namespace), replace the op's error by an internal error.
All six `YBOperation` types run the same `partition.ContainsKey` check. -/
def partitionSanity (cfg : Config) (op : InFlightOp) : InFlightOp :=
  match op.tablet with
  | none => op
  | some t =>
    if tabletContainsKey t op.partition_key = false ∨
       (cfg.simulate_lookup_mismatch = true ∧ op.yb_op.namespace_name = "yb_test") then
      { op with error :=
          { code := StatusCode.InternalError, msg := "Row not in partition" } }
    else op

/-- `std::map::emplace`: insert only when the key is absent, so the first
error recorded for a partition key wins (batcher.cc:372). -/
def emplaceIfAbsent (m : List (PartitionKey × Status)) (k : PartitionKey) (v : Status) :
    List (PartitionKey × Status) :=
  if m.any (fun p => decide (p.1 = k)) then m else m ++ [(k, v)]

/-- Body loop of `Batcher::CollectOpsErrors` (batcher.cc:334-377): run the
partition sanity check on each queued op and collect, per partition key, the
first error found. -/
def collectLoop (cfg : Config) :
    List InFlightOp → List (PartitionKey × Status) →
    List InFlightOp × List (PartitionKey × Status)
  | [], m => ([], m)
  | op :: rest, m =>
    let op := partitionSanity cfg op
    let m := if op.error.isOk then m else emplaceIfAbsent m op.partition_key op.error
    let qm := collectLoop cfg rest m
    (op :: qm.1, qm.2)

/-- `Batcher::CollectOpsErrors` (batcher.cc:334): returns the checked queue
together with the partition-key → first-error map. -/
def Batcher.CollectOpsErrors (cfg : Config) (q : List InFlightOp) :
    List InFlightOp × List (PartitionKey × Status) :=
  collectLoop cfg q []

/-- The `EraseIf` pass of `Batcher::AllLookupsDone` (batcher.cc:401-413):
an op with an ok error inherits the error recorded for its partition key, if
any; every op with a non-ok error is fed to `CombineError` and removed.
Returns the batcher (with collector updates) and the surviving queue. -/
def eraseLoop (cfg : Config) (errors : List (PartitionKey × Status)) :
    Batcher → List InFlightOp → Batcher × List InFlightOp
  | b, [] => (b, [])
  | b, op :: rest =>
    let op := if op.error.isOk then
        match errors.lookup op.partition_key with
        | some e => { op with error := e }
        | none => op
      else op
    if op.error.isOk then
      let bk := eraseLoop cfg errors b rest
      (bk.1, op :: bk.2)
    else
      eraseLoop cfg errors (Batcher.CombineError cfg b op) rest

/-- The sort comparator of `Batcher::AllLookupsDone` (batcher.cc:426-438):
by tablet pointer identity, then `OpGroup` value, then sequence number. -/
def opLT (a b : InFlightOp) : Bool :=
  if a.tabletPtr = b.tabletPtr then
    if a.yb_op.op_group = b.yb_op.op_group then
      decide (a.sequence_number < b.sequence_number)
    else decide (a.yb_op.op_group.toNat < b.yb_op.op_group.toNat)
  else decide (a.tabletPtr < b.tabletPtr)

def insertOp (x : InFlightOp) : List InFlightOp → List InFlightOp
  | [] => [x]
  | y :: ys => if opLT x y then x :: y :: ys else y :: insertOp x ys

/-- The `std::sort` call of `Batcher::AllLookupsDone` (batcher.cc:426).
`std::sort` is unstable, but the comparator is a strict total order whenever
sequence numbers are distinct (which `FlushAsync` guarantees by assigning them
by position), so the sorted result is unique and an insertion sort computes
it. -/
def sortOpsQueue : List InFlightOp → List InFlightOp
  | [] => []
  | x :: xs => insertOp x (sortOpsQueue xs)

/-- The partition-list version check of `Batcher::AllLookupsDone`
(batcher.cc:446-455): an op that declares a partition list version mismatching
its resolved tablet's version aborts the batch. -/
def hasVersionMismatch (op : InFlightOp) : Bool :=
  match op.yb_op.partition_list_version with
  | some v => decide (v ≠ op.tabletListVersion)
  | none => false

/-- The status built by `STATUS_EC_FORMAT(Aborted,
ClientError(ClientErrorCode::kTablePartitionListVersionDoesNotMatch), ...)`
(batcher.cc:449-453). -/
def versionMismatchStatus : Status :=
  { code := StatusCode.Aborted,
    msg := "Operation requested table partition list version does not match ours",
    clientError := some ClientErrorCode.kTablePartitionListVersionDoesNotMatch }

/-- The grouping loop of `Batcher::AllLookupsDone` (batcher.cc:440-463): walk
the sorted queue, abort at the first partition-list version mismatch, and cut
a group boundary whenever the (tablet pointer, op group) key changes; a final
group is pushed at the end.  Groups are half-open index ranges over the sorted
queue, mirroring the iterator ranges of `InFlightOpsGroup`. -/
def buildGroupsLoop (gstart : Nat) (ckey : Nat × OpGroup) (idx : Nat)
    (acc : List (Nat × Nat)) : List InFlightOp → Except Status (List (Nat × Nat))
  | [] => Except.ok (acc ++ [(gstart, idx)])
  | op :: rest =>
    if hasVersionMismatch op then Except.error versionMismatchStatus
    else if (op.tabletPtr, op.yb_op.op_group) = ckey then
      buildGroupsLoop gstart ckey (idx + 1) acc rest
    else
      buildGroupsLoop idx (op.tabletPtr, op.yb_op.op_group) (idx + 1)
        (acc ++ [(gstart, idx)]) rest

def buildGroups : List InFlightOp → Except Status (List (Nat × Nat))
  | [] => Except.ok []
  | op :: rest => buildGroupsLoop 0 (op.tabletPtr, op.yb_op.op_group) 0 [] (op :: rest)

/-- Whether `transaction->Prepare(...)` returns `false` (not ready yet):
only on the first (`initial`) call of a transaction that is not ready
synchronously; after its continuation has been invoked, `Prepare` succeeds. -/
def prepareSuspends (b : Batcher) (initial : Bool) : Bool :=
  match b.transaction with
  | some (TxnBehavior.pending _) => initial
  | _ => false

/-- `Batcher::CreateRpc` (batcher.cc:550): the RPC kind and tablet come from
the first op of the group; the ops are the group's index range. -/
def mkRpc (q : List InFlightOp) (g : Nat × Nat) (allow_local ncr : Bool) : Rpc :=
  let op0 := (q.drop g.1).headD default
  { kind := op0.yb_op.op_group, tabletPtr := op0.tabletPtr,
    rbegin := g.1, rend := g.2,
    allow_local := allow_local, need_consistent_read := ncr }

/-- `Batcher::ExecuteOperations` (batcher.cc:468): gate on the transaction
prepare step, re-check the state (the batcher may have been aborted while
waiting), move to `kTransactionReady`, compute `need_consistent_read =
(force_consistent_read_ || transaction) || groups.size() > 1`, create one RPC
per group — only the last group may allow local calls — and store the RPC
count in `outstanding_rpcs_` before sending. -/
def Batcher.ExecuteOperations (b : Batcher) (initial : Bool) : Batcher :=
  if prepareSuspends b initial then b
  else if b.state ≠ BatcherState.kTransactionPrepare then b
  else
    let b := { b with state := BatcherState.kTransactionReady }
    let fcr := b.force_consistent_read || b.transaction.isSome
    let ncr := fcr || decide (b.groups.length > 1)
    let n := b.groups.length
    let rpcs := (List.range n).map (fun i =>
      mkRpc b.ops_queue (b.groups.getD i (0, 0))
        (b.allow_local_calls_in_curr_thread && decide (i = n - 1)) ncr)
    { b with rpcs := rpcs, outstanding_rpcs := rpcs.length }

/-- `Batcher::AllLookupsDone` (batcher.cc:379): runs when the outstanding
lookup counter reaches zero.  Collect per-op errors, spread them by partition
key and erase errored ops, finish immediately if the queue emptied, otherwise
sort, check partition-list versions (abort on mismatch), group, and execute. -/
def Batcher.AllLookupsDone (cfg : Config) (b : Batcher) : Batcher :=
  if b.state ≠ BatcherState.kResolvingTablets then b
  else
    let qe := Batcher.CollectOpsErrors cfg b.ops_queue
    let b := { b with ops_queue := qe.1, state := BatcherState.kTransactionPrepare }
    let b := if qe.2 = [] then b
      else
        let bk := eraseLoop cfg qe.2 b b.ops_queue
        { bk.1 with ops_queue := bk.2 }
    if b.ops_queue = [] then Batcher.FlushFinished b
    else
      let b := { b with ops_queue := sortOpsQueue b.ops_queue }
      match buildGroups b.ops_queue with
      | Except.error st => Batcher.Abort st b
      | Except.ok gs => Batcher.ExecuteOperations { b with groups := gs } true

/-- `Batcher::TabletLookupFinished` (batcher.cc:311): record the lookup result
on the op (tablet on success, error on failure), decrement the outstanding
lookup counter, and run `AllLookupsDone` when it reaches zero. -/
def Batcher.TabletLookupFinished (cfg : Config) (b : Batcher) (idx : Nat)
    (res : Except Status Tablet) : Batcher :=
  let b := { b with ops_queue := modifyAt b.ops_queue idx (fun op =>
      match res with
      | Except.ok t => { op with tablet := some t }
      | Except.error e => { op with error := e }) }
  let b := { b with outstanding_lookups := b.outstanding_lookups - 1 }
  if b.outstanding_lookups = 0 then Batcher.AllLookupsDone cfg b else b

/-- `Batcher::TransactionReady` (batcher.cc:326). -/
def Batcher.TransactionReady (st : Status) (b : Batcher) : Batcher :=
  if st.isOk then Batcher.ExecuteOperations b false else Batcher.Abort st b

/-- The status of `STATUS_FORMAT(IllegalState, "Hash partition key is empty
for $0", ...)` (batcher.cc:243). -/
def hashKeyEmptyStatus : Status :=
  { code := StatusCode.IllegalState, msg := "Hash partition key is empty" }

/-- The materialization loop of `Batcher::FlushAsync` (batcher.cc:234-255):
each pending op is appended to `ops_queue_` with its position as sequence
number; its partition key is computed; for hash-partitioned tables an empty
key on a non-read-only op is an illegal state, a non-empty key sets the op's
hash code.  On the first failure the whole flush fails synchronously through
`FlushFinished` and the loop stops. -/
def Batcher.MaterializeOps (b : Batcher) : List YBOp → Batcher
  | [] => b
  | yb_op :: rest =>
    let seq := b.ops_queue.length
    match yb_op.get_partition_key_result with
    | Except.error st =>
      Batcher.FlushFinished { b with
        ops_queue := b.ops_queue ++
          [{ yb_op := yb_op, partition_key := [], sequence_number := seq }],
        combined_error := st }
    | Except.ok key =>
      if yb_op.is_hash_partitioning = true ∧ key = [] ∧ yb_op.read_only = false then
        Batcher.FlushFinished { b with
          ops_queue := b.ops_queue ++
            [{ yb_op := yb_op, partition_key := key, sequence_number := seq }],
          combined_error := hashKeyEmptyStatus }
      else
        let yb_op := if yb_op.is_hash_partitioning = true ∧ key ≠ [] then
            { yb_op with hash_code := some (decodeMultiColumnHashValue key) }
          else yb_op
        Batcher.MaterializeOps { b with
          ops_queue := b.ops_queue ++
            [{ yb_op := yb_op, partition_key := key, sequence_number := seq }] } rest

/-- `Batcher::FlushAsync` (batcher.cc:207): require `kGatheringOps` (the C++
`CHECK_EQ` aborts the process otherwise), move to `kResolvingTablets`,
snapshot the op count into the outstanding-lookups counter, store the
callback, notify the session, announce the op count to the transaction unless
retrying within it, and materialize the pending ops.  The subsequent lookup
fan-out (batcher.cc:257-269) is modelled by `DeliverLookups` below: each op's
`TabletLookupFinished` continuation is delivered in queue order, an op with a
tablet hint resolving to its hint. -/
def Batcher.FlushAsync (is_within_transaction_retry : Bool) (b : Batcher) : Batcher :=
  if b.state ≠ BatcherState.kGatheringOps then b
  else
    let operations_count := b.ops.length
    let b := { b with
      state := BatcherState.kResolvingTablets,
      outstanding_lookups := operations_count,
      flush_callback := true,
      session_flush_started := b.session_flush_started + 1,
      txn_expected_ops := if b.transaction.isSome && !is_within_transaction_retry
        then some operations_count else b.txn_expected_ops }
    Batcher.MaterializeOps b b.ops

/-- Set the error of every op in the index range `[i, j)` of the queue. -/
def setErrorRange (q : List InFlightOp) (i j : Nat) (s : Status) : List InFlightOp :=
  q.mapIdx (fun k op => if i ≤ k ∧ k < j then { op with error := s } else op)

/-- `Batcher::ProcessRpcStatus` (batcher.cc:627): outside `kTransactionReady`
log and ignore; a non-ok RPC status is propagated to every op of the RPC. -/
def Batcher.ProcessRpcStatus (b : Batcher) (rpc : Rpc) (s : Status) : Batcher :=
  if b.state ≠ BatcherState.kTransactionReady then b
  else if s.isOk then b
  else { b with ops_queue := setErrorRange b.ops_queue rpc.rbegin rpc.rend s }

/-- One per-row error of a `WriteResponsePB` (`row_index`, already-decoded
`StatusFromPB(err_pb.error())`). -/
structure PerRowError where
  row_index : Nat
  error : Status
deriving DecidableEq

/-- The per-row error loop of `Batcher::ProcessWriteResponse`
(batcher.cc:656-672): a row index at or beyond the RPC's op count is logged
and skipped; otherwise the decoded error is recorded on exactly that op of
the RPC's range. -/
def applyRowErrors (q : List InFlightOp) (rb re : Nat) :
    List PerRowError → List InFlightOp
  | [] => q
  | pre :: rest =>
    if pre.row_index ≥ re - rb then applyRowErrors q rb re rest
    else applyRowErrors
      (modifyAt q (rb + pre.row_index) (fun op => { op with error := pre.error })) rb re rest

/-- The write response payload the batcher inspects. -/
structure WriteResponse where
  per_row_errors : List PerRowError := []
  propagated_hybrid_time : Option Nat := none
deriving DecidableEq

/-- `Batcher::ProcessWriteResponse` (batcher.cc:648): process the RPC status,
update the client's observed hybrid time high-water mark on success, then
apply the per-row errors. -/
def Batcher.ProcessWriteResponse (b : Batcher) (rpc : Rpc) (s : Status)
    (resp : WriteResponse) : Batcher :=
  let b := Batcher.ProcessRpcStatus b rpc s
  let b := match s.isOk, resp.propagated_hybrid_time with
    | true, some ht =>
      { b with latest_observed_hybrid_time := max b.latest_observed_hybrid_time ht }
    | _, _ => b
  { b with ops_queue := applyRowErrors b.ops_queue rpc.rbegin rpc.rend resp.per_row_errors }

/-- `Batcher::ProcessReadResponse` (batcher.cc:644). -/
def Batcher.ProcessReadResponse (b : Batcher) (rpc : Rpc) (s : Status) : Batcher :=
  Batcher.ProcessRpcStatus b rpc s

/-- Modelled from the spec: `ShouldSessionRetryError` (session-side, not among
the provided sources) holds for the stale-partition-metadata client errors,
which the session retries after refreshing. -/
def shouldSessionRetryError (s : Status) : Bool :=
  decide (s.clientError = some ClientErrorCode.kTablePartitionListIsStale) ||
  decide (s.clientError = some ClientErrorCode.kTablePartitionListVersionDoesNotMatch)

/-- `Batcher::Flushed` (batcher.cc:596): notify the transaction unless the
error will be retried by the session, update the read point clock on success,
decrement the outstanding-RPC counter, and on the last response fold every
op's recorded error into the error collector and finish the flush. -/
def Batcher.Flushed (cfg : Config) (b : Batcher) (s : Status) : Batcher :=
  let b := { b with
    txn_flushed_count :=
      if b.transaction.isSome && !(!s.isOk && shouldSessionRetryError s)
      then b.txn_flushed_count + 1 else b.txn_flushed_count,
    clock_updates :=
      if s.isOk && b.read_point then b.clock_updates + 1 else b.clock_updates }
  let b := { b with outstanding_rpcs := b.outstanding_rpcs - 1 }
  if b.outstanding_rpcs = 0 then
    let b := b.ops_queue.foldl
      (fun acc op => if op.error.isOk then acc else Batcher.CombineError cfg acc op) b
    Batcher.FlushFinished b
  else b

/-- One RPC completion and its response payload, as delivered by the driver. -/
structure RpcOutcome where
  rpc_status : Status := okStatus
  response : WriteResponse := {}
deriving DecidableEq

/-- External inputs of one flush execution: the tablet-lookup results by
queue position and the RPC outcomes by dispatch position. -/
structure FlushEnv where
  lookups : Nat → Except Status Tablet
  outcomes : Nat → RpcOutcome

/-- Deliver the completion of the RPC at index `idx`: process its response
(write or read path by kind) and run `Flushed`. -/
def RpcDone (cfg : Config) (env : FlushEnv) (b : Batcher) (idx : Nat) : Batcher :=
  let rpc := (b.rpcs.drop idx).headD dummyRpc
  let oc := env.outcomes idx
  let b := match rpc.kind with
    | OpGroup.kWrite => Batcher.ProcessWriteResponse b rpc oc.rpc_status oc.response
    | _ => Batcher.ProcessReadResponse b rpc oc.rpc_status
  Batcher.Flushed cfg b oc.rpc_status

/-- Deliver `r` RPC completions starting at index `idx`. -/
def DeliverResponsesFrom (cfg : Config) (env : FlushEnv) :
    Batcher → Nat → Nat → Batcher
  | b, _, 0 => b
  | b, idx, r + 1 => DeliverResponsesFrom cfg env (RpcDone cfg env b idx) (idx + 1) r

def DeliverResponses (cfg : Config) (env : FlushEnv) (b : Batcher) : Batcher :=
  DeliverResponsesFrom cfg env b 0 b.rpcs.length

/-- Deliver `r` tablet-lookup completions starting at queue index `idx`, in
queue order; an op carrying a tablet hint resolves to its hint
(batcher.cc:262-268), the others take the environment's lookup result. -/
def DeliverLookups (cfg : Config) (env : FlushEnv) :
    Batcher → Nat → Nat → Batcher
  | b, _, 0 => b
  | b, idx, r + 1 =>
    let res := match ((b.ops_queue.drop idx).headD default).yb_op.tablet_hint with
      | some t => Except.ok t
      | none => env.lookups idx
    DeliverLookups cfg env (Batcher.TabletLookupFinished cfg b idx res) (idx + 1) r

/-- The status a pending transaction will deliver to `TransactionReady`. -/
def txnPendingStatus (b : Batcher) : Option Status :=
  match b.transaction with
  | some (TxnBehavior.pending st) => some st
  | _ => none

/-- One whole flush attempt: `FlushAsync`, then (unless it already finished
synchronously) all lookup completions, then — if the batcher suspended on a
pending transaction prepare — the transaction's `TransactionReady`
continuation, then all RPC completions. -/
def RunFlush (cfg : Config) (env : FlushEnv) (is_retry : Bool) (b0 : Batcher) : Batcher :=
  let b1 := Batcher.FlushAsync is_retry b0
  if b1.state = BatcherState.kComplete ∨ b1.state = BatcherState.kAborted then b1
  else
    let b2 := DeliverLookups cfg env b1 0 b1.ops_queue.length
    let b3 := match b2.state, txnPendingStatus b2 with
      | BatcherState.kTransactionPrepare, some st => Batcher.TransactionReady st b2
      | _, _ => b2
    if b3.state = BatcherState.kTransactionReady then DeliverResponses cfg env b3 else b3

/-! ## Sample fixtures used by witnesses and counterexamples -/

def sampleCfg : Config := {}

def sampleTablet : Tablet := { ptr := 1, partition_list_version := 3 }

def sampleWriteOp : YBOp := { op_id := 1, op_group := OpGroup.kWrite }

def sampleWriteOp2 : YBOp := { op_id := 2, op_group := OpGroup.kWrite }

def sampleErr : Status := { code := StatusCode.IOError, msg := "e1" }

def sampleErr2 : Status := { code := StatusCode.IllegalState, msg := "e2" }

def sampleEnv : FlushEnv :=
  { lookups := fun _ => Except.ok sampleTablet, outcomes := fun _ => {} }

/-! ## Helper lemmas -/

theorem Run_ops (b : Batcher) : (Batcher.Run b).ops = b.ops := by
  unfold Batcher.Run; split <;> rfl

theorem FlushFinished_ops (b : Batcher) : (Batcher.FlushFinished b).ops = b.ops := by
  unfold Batcher.FlushFinished Batcher.RunCallback Batcher.Run
  dsimp only
  split <;> split <;> split <;> rfl

theorem MaterializeOps_ops (l : List YBOp) (b : Batcher) :
    (Batcher.MaterializeOps b l).ops = b.ops := by
  induction l generalizing b with
  | nil => rfl
  | cons op rest ih =>
    unfold Batcher.MaterializeOps
    cases op.get_partition_key_result with
    | error st => exact FlushFinished_ops _
    | ok key =>
      by_cases h : op.is_hash_partitioning = true ∧ key = [] ∧ op.read_only = false
      · simp only [if_pos h]; exact FlushFinished_ops _
      · simp only [if_neg h]; exact ih _

theorem FlushAsync_ops (retry : Bool) (b : Batcher) :
    (Batcher.FlushAsync retry b).ops = b.ops := by
  unfold Batcher.FlushAsync
  split
  · rfl
  · dsimp only
    split <;> exact MaterializeOps_ops _ _

theorem Abort_ops (s : Status) (b : Batcher) : (Batcher.Abort s b).ops = b.ops := by
  unfold Batcher.Abort; exact FlushFinished_ops _

/-! ## C10 -/

/-- C10: `HasPendingOperations()` returns true exactly when the pending op
list `ops_` is non-empty, and `ops_` is never cleared: it is preserved by
`FlushAsync`, `Abort` and `FlushFinished` (and only `Add`, in `kGatheringOps`,
appends to it), so after the flush has completed `HasPendingOperations()`
still reports true, while `CountBufferedOperations()` returns the pending size
only in `kGatheringOps` and 0 in every other state. -/
theorem C10_pending_ops_never_cleared (b : Batcher) (s : Status) (retry : Bool) (op : YBOp) :
    (Batcher.HasPendingOperations b = !b.ops.isEmpty) ∧
    ((Batcher.FlushAsync retry b).ops = b.ops) ∧
    ((Batcher.Abort s b).ops = b.ops) ∧
    ((Batcher.FlushFinished b).ops = b.ops) ∧
    ((Batcher.Add b op).ops =
      if b.state = BatcherState.kGatheringOps then b.ops ++ [op] else b.ops) ∧
    (Batcher.CountBufferedOperations b =
      if b.state = BatcherState.kGatheringOps then b.ops.length else 0) := by
  refine ⟨rfl, FlushAsync_ops _ _, Abort_ops _ _, FlushFinished_ops _, ?_, rfl⟩
  by_cases h : b.state = BatcherState.kGatheringOps <;> simp [Batcher.Add, h]

/-! ## C8 -/

/-- C8: in `FlushFinished`, when the aggregated status is ok but the error
collector is non-empty, the status handed to the user callback is replaced by
the generic `kGeneralErrorStatus` IO error; otherwise the prior aggregated
status is passed unchanged. -/
theorem C8_flush_finished_replaces_ok_status (b : Batcher) (h : b.flush_callback = true) :
    (Batcher.FlushFinished b).invocations =
      b.invocations ++
        [if b.combined_error.isOk = true ∧ b.error_collector.length ≠ 0
         then kGeneralErrorStatus else b.combined_error] ∧
    (Batcher.FlushFinished b).combined_error =
      (if b.combined_error.isOk = true ∧ b.error_collector.length ≠ 0
       then kGeneralErrorStatus else b.combined_error) := by
  unfold Batcher.FlushFinished Batcher.RunCallback Batcher.Run
  dsimp only
  split <;> split <;> simp_all

def c8FixtureBatcher : Batcher := { flush_callback := true, error_collector := [(1, sampleErr)] }

theorem C8_witness :
    c8FixtureBatcher.flush_callback = true ∧
    ((Batcher.FlushFinished c8FixtureBatcher).invocations =
      c8FixtureBatcher.invocations ++
        [if c8FixtureBatcher.combined_error.isOk = true ∧
            c8FixtureBatcher.error_collector.length ≠ 0
         then kGeneralErrorStatus else c8FixtureBatcher.combined_error] ∧
    (Batcher.FlushFinished c8FixtureBatcher).combined_error =
      (if c8FixtureBatcher.combined_error.isOk = true ∧
          c8FixtureBatcher.error_collector.length ≠ 0
       then kGeneralErrorStatus else c8FixtureBatcher.combined_error)) :=
  ⟨rfl, C8_flush_finished_replaces_ok_status c8FixtureBatcher rfl⟩

/-! ## C6 -/

/-- C6: at dispatch, `need_consistent_read` is
`force_consistent_read_ || transaction_present || groups.size() > 1`, and
every RPC constructed for the batch receives this same value. -/
theorem C6_need_consistent_read (b : Batcher) (initial : Bool)
    (hst : b.state = BatcherState.kTransactionPrepare)
    (hp : prepareSuspends b initial = false) :
    ∀ rpc ∈ (Batcher.ExecuteOperations b initial).rpcs,
      rpc.need_consistent_read =
        ((b.force_consistent_read || b.transaction.isSome) ||
          decide (b.groups.length > 1)) := by
  intro rpc hrpc
  unfold Batcher.ExecuteOperations at hrpc
  simp only [hp, Bool.false_eq_true, if_false, hst, ne_eq, not_true_eq_false,
    if_neg, ite_false] at hrpc
  dsimp only at hrpc
  rw [List.mem_map] at hrpc
  obtain ⟨i, _, rfl⟩ := hrpc
  rfl

def c6FixtureBatcher : Batcher :=
  { state := BatcherState.kTransactionPrepare,
    ops_queue := [{ yb_op := sampleWriteOp, partition_key := [],
                    tablet := some sampleTablet, sequence_number := 0 }],
    groups := [(0, 1)],
    force_consistent_read := true }

theorem C6_witness :
    c6FixtureBatcher.state = BatcherState.kTransactionPrepare ∧
    prepareSuspends c6FixtureBatcher true = false ∧
    ∀ rpc ∈ (Batcher.ExecuteOperations c6FixtureBatcher true).rpcs,
      rpc.need_consistent_read =
        ((c6FixtureBatcher.force_consistent_read || c6FixtureBatcher.transaction.isSome) ||
          decide (c6FixtureBatcher.groups.length > 1)) :=
  ⟨rfl, rfl, C6_need_consistent_read c6FixtureBatcher true rfl rfl⟩

/-! ## C9 -/

theorem modifyAt_length {α : Type} (l : List α) (i : Nat) (f : α → α) :
    (modifyAt l i f).length = l.length := by
  induction l generalizing i with
  | nil => rfl
  | cons x xs ih =>
    cases i with
    | zero => rfl
    | succ n => simp [modifyAt, ih]

theorem getD_modifyAt {α : Type} (l : List α) (i j : Nat) (f : α → α) (d : α) :
    (modifyAt l i f).getD j d =
      if i = j ∧ j < l.length then f (l.getD j d) else l.getD j d := by
  induction l generalizing i j with
  | nil => simp [modifyAt]
  | cons x xs ih =>
    cases i with
    | zero =>
      cases j with
      | zero => simp [modifyAt]
      | succ m => simp [modifyAt]
    | succ n =>
      cases j with
      | zero => simp [modifyAt]
      | succ m =>
        simp only [modifyAt, List.getD_cons_succ, List.length_cons]
        rw [ih]
        by_cases h : n = m ∧ m < xs.length
        · rw [if_pos h, if_pos (by omega)]
        · rw [if_neg h, if_neg (by omega)]

/-- The error the per-row loop leaves on the op at offset `j` of the RPC's
range: the last in-range per-row error naming row `j`, or the op's prior
error when no such entry exists. -/
def lastRowError (size j : Nat) (errs : List PerRowError) (dflt : Status) : Status :=
  errs.foldl
    (fun acc pre => if pre.row_index < size ∧ pre.row_index = j then pre.error else acc)
    dflt

theorem applyRowErrors_cons (q : List InFlightOp) (rb re : Nat) (pre : PerRowError)
    (rest : List PerRowError) :
    applyRowErrors q rb re (pre :: rest) =
      if re - rb ≤ pre.row_index then applyRowErrors q rb re rest
      else applyRowErrors
        (modifyAt q (rb + pre.row_index) (fun op => { op with error := pre.error }))
        rb re rest := rfl

theorem applyRowErrors_spec (rb re : Nat) (errs : List PerRowError) :
    ∀ q : List InFlightOp, re ≤ q.length → rb ≤ re →
      (applyRowErrors q rb re errs).length = q.length ∧
      (∀ j d, j < rb ∨ re ≤ j → (applyRowErrors q rb re errs).getD j d = q.getD j d) ∧
      (∀ j d, rb ≤ j → j < re →
        (applyRowErrors q rb re errs).getD j d =
          { q.getD j d with
            error := lastRowError (re - rb) (j - rb) errs ((q.getD j d).error) }) := by
  induction errs with
  | nil =>
    intro q _ _
    exact ⟨rfl, fun j d _ => rfl, fun j d _ _ => rfl⟩
  | cons pre rest ih =>
    intro q hre hrb
    by_cases hcase : re - rb ≤ pre.row_index
    · have hskip : applyRowErrors q rb re (pre :: rest) = applyRowErrors q rb re rest := by
        rw [applyRowErrors_cons, if_pos hcase]
      rw [hskip]
      obtain ⟨h1, h2, h3⟩ := ih q hre hrb
      refine ⟨h1, h2, fun j d hj1 hj2 => ?_⟩
      rw [h3 j d hj1 hj2]
      have : lastRowError (re - rb) (j - rb) (pre :: rest) ((q.getD j d).error) =
          lastRowError (re - rb) (j - rb) rest ((q.getD j d).error) := by
        unfold lastRowError
        simp only [List.foldl_cons]
        rw [if_neg (by omega)]
      rw [this]
    · push_neg at hcase
      have hstep : applyRowErrors q rb re (pre :: rest) =
          applyRowErrors
            (modifyAt q (rb + pre.row_index) (fun op => { op with error := pre.error }))
            rb re rest := by
        rw [applyRowErrors_cons, if_neg (by omega)]
      have hlen : (modifyAt q (rb + pre.row_index)
          (fun op => { op with error := pre.error })).length = q.length :=
        modifyAt_length _ _ _
      obtain ⟨h1, h2, h3⟩ := ih
        (modifyAt q (rb + pre.row_index) (fun op => { op with error := pre.error }))
        (by omega) hrb
      rw [hstep]
      refine ⟨by rw [h1, hlen], fun j d hj => ?_, fun j d hj1 hj2 => ?_⟩
      · rw [h2 j d hj, getD_modifyAt, if_neg (by omega)]
      · rw [h3 j d hj1 hj2, getD_modifyAt]
        by_cases hj : rb + pre.row_index = j
        · rw [if_pos ⟨hj, by omega⟩]
          have hfold : lastRowError (re - rb) (j - rb) (pre :: rest) ((q.getD j d).error) =
              lastRowError (re - rb) (j - rb) rest pre.error := by
            unfold lastRowError
            simp only [List.foldl_cons]
            rw [if_pos ⟨by omega, by omega⟩]
          rw [hfold]
        · rw [if_neg (fun hc => hj hc.1)]
          have hfold : lastRowError (re - rb) (j - rb) (pre :: rest) ((q.getD j d).error) =
              lastRowError (re - rb) (j - rb) rest ((q.getD j d).error) := by
            unfold lastRowError
            simp only [List.foldl_cons]
            rw [if_neg (by omega)]
          rw [hfold]

theorem applyRowErrors_all_oob (q : List InFlightOp) (rb re : Nat) (errs : List PerRowError)
    (h : ∀ pre ∈ errs, re - rb ≤ pre.row_index) : applyRowErrors q rb re errs = q := by
  induction errs with
  | nil => rfl
  | cons pre rest ih =>
    rw [applyRowErrors_cons, if_pos (h pre (List.mem_cons_self _ _))]
    exact ih (fun p hp => h p (List.mem_cons_of_mem _ hp))

/-- C9: in `ProcessWriteResponse`, each per-row error whose row index is
within the RPC's op count (`[rb, re)` over the queue) is recorded as the
decoded status on exactly that op — the op at offset `j` ends with the last
in-range per-row error naming row `j`, all its other fields untouched — while
ops outside the RPC's range keep their prior state, and per-row errors with
an out-of-range row index are discarded without modifying anything. -/
theorem C9_per_row_errors (q : List InFlightOp) (rb re : Nat)
    (errs : List PerRowError) (hre : re ≤ q.length) (hrb : rb ≤ re) :
    (applyRowErrors q rb re errs).length = q.length ∧
    (∀ j d, j < rb ∨ re ≤ j → (applyRowErrors q rb re errs).getD j d = q.getD j d) ∧
    (∀ j d, rb ≤ j → j < re →
      (applyRowErrors q rb re errs).getD j d =
        { q.getD j d with
          error := lastRowError (re - rb) (j - rb) errs ((q.getD j d).error) }) ∧
    ((∀ pre ∈ errs, re - rb ≤ pre.row_index) → applyRowErrors q rb re errs = q) ∧
    (∀ (b : Batcher) (rpc : Rpc) (s : Status) (resp : WriteResponse),
      b.state = BatcherState.kTransactionReady → s.isOk = true →
      (Batcher.ProcessWriteResponse b rpc s resp).ops_queue =
        applyRowErrors b.ops_queue rpc.rbegin rpc.rend resp.per_row_errors) := by
  obtain ⟨h1, h2, h3⟩ := applyRowErrors_spec rb re errs q hre hrb
  refine ⟨h1, h2, h3, applyRowErrors_all_oob q rb re errs, ?_⟩
  intro b rpc s resp hst hok
  unfold Batcher.ProcessWriteResponse Batcher.ProcessRpcStatus
  rw [hok]
  dsimp only
  rw [if_neg (by simp [hst])]
  cases resp.propagated_hybrid_time <;> rfl

def c9FixtureQueue : List InFlightOp :=
  [{ yb_op := sampleWriteOp, partition_key := [], sequence_number := 0 },
   { yb_op := sampleWriteOp2, partition_key := [], sequence_number := 1 },
   { yb_op := { op_id := 5 }, partition_key := [], sequence_number := 2 }]

theorem C9_witness :
    (3 : Nat) ≤ c9FixtureQueue.length ∧ (0 : Nat) ≤ 3 ∧
    ((applyRowErrors c9FixtureQueue 0 3 [{ row_index := 1, error := sampleErr }]).length =
        c9FixtureQueue.length ∧
      (∀ j d, j < 0 ∨ 3 ≤ j →
        (applyRowErrors c9FixtureQueue 0 3 [{ row_index := 1, error := sampleErr }]).getD j d =
          c9FixtureQueue.getD j d) ∧
      (∀ j d, 0 ≤ j → j < 3 →
        (applyRowErrors c9FixtureQueue 0 3 [{ row_index := 1, error := sampleErr }]).getD j d =
          { c9FixtureQueue.getD j d with
            error := lastRowError (3 - 0) (j - 0) [{ row_index := 1, error := sampleErr }]
              ((c9FixtureQueue.getD j d).error) }) ∧
      ((∀ pre ∈ [({ row_index := 1, error := sampleErr } : PerRowError)],
          3 - 0 ≤ pre.row_index) →
        applyRowErrors c9FixtureQueue 0 3 [{ row_index := 1, error := sampleErr }] =
          c9FixtureQueue) ∧
      (∀ (b : Batcher) (rpc : Rpc) (s : Status) (resp : WriteResponse),
        b.state = BatcherState.kTransactionReady → s.isOk = true →
        (Batcher.ProcessWriteResponse b rpc s resp).ops_queue =
          applyRowErrors b.ops_queue rpc.rbegin rpc.rend resp.per_row_errors)) :=
  ⟨by decide, by decide,
   C9_per_row_errors c9FixtureQueue 0 3 [{ row_index := 1, error := sampleErr }]
     (by decide) (by decide)⟩

/-! ## C1 -/

/-- C1 counterexample: flushing a batcher with zero submitted operations.
`FlushAsync` sets `outstanding_lookups_ = 0`, but `AllLookupsDone` is only
ever invoked by a lookup continuation decrementing that counter to zero
(batcher.cc:321), and with no ops no lookup is ever launched — so the user
callback is never invoked (not invoked once with an ok status, as claimed),
while the error collector is indeed empty. -/
theorem C1_counterexample :
    (RunFlush sampleCfg sampleEnv false { ops := [] }).invocations = [] ∧
    (RunFlush sampleCfg sampleEnv false { ops := [] }).CountErrors = 0 ∧
    ¬ (RunFlush sampleCfg sampleEnv false { ops := [] }).invocations.length = 1 := by
  refine ⟨rfl, rfl, by decide⟩

/-- C1 (amended): if `FlushAsync` is invoked on a Batcher with zero submitted
operations, the user callback never fires — the batcher transitions to
`kResolvingTablets` and stays there, with the callback slot still occupied —
and the error collector stays empty (unchanged). -/
theorem C1_empty_flush_never_fires (cfg : Config) (env : FlushEnv)
    (retry : Bool) (b : Batcher)
    (hops : b.ops = []) (hq : b.ops_queue = [])
    (hst : b.state = BatcherState.kGatheringOps) (hinv : b.invocations = []) :
    (RunFlush cfg env retry b).invocations = [] ∧
    (RunFlush cfg env retry b).flush_callback = true ∧
    (RunFlush cfg env retry b).state = BatcherState.kResolvingTablets ∧
    (RunFlush cfg env retry b).error_collector = b.error_collector := by
  obtain ⟨st, ops, oq, gs, rp, ol, orp, ec, ce, fc, inv, bfc, sfs, sff, txn, teo, tfc,
    rdp, cu, ht, fcr, alc, stt⟩ := b
  dsimp only at hops hq hst hinv
  subst hops hq hst hinv
  unfold RunFlush Batcher.FlushAsync Batcher.MaterializeOps DeliverLookups txnPendingStatus
  dsimp only
  cases htx : txn.isSome && !retry <;> simp [htx]

theorem C1_witness :
    (({ ops := [] } : Batcher).ops = []) ∧ (({ ops := [] } : Batcher).ops_queue = []) ∧
    (({ ops := [] } : Batcher).state = BatcherState.kGatheringOps) ∧
    (({ ops := [] } : Batcher).invocations = []) ∧
    ((RunFlush sampleCfg sampleEnv true { ops := [] }).invocations = [] ∧
     (RunFlush sampleCfg sampleEnv true { ops := [] }).flush_callback = true ∧
     (RunFlush sampleCfg sampleEnv true { ops := [] }).state = BatcherState.kResolvingTablets ∧
     (RunFlush sampleCfg sampleEnv true { ops := [] }).error_collector =
       ({ ops := [] } : Batcher).error_collector) :=
  ⟨rfl, rfl, rfl, rfl,
   C1_empty_flush_never_fires sampleCfg sampleEnv true { ops := [] } rfl rfl rfl rfl⟩

/-! ## C2 -/

/-- Evaluation of `Abort` with a non-ok status: the collector gains one entry
per queued op, the combined error and the `kAborted` state are set, the
session is notified, and the callback runner executes. -/
theorem Abort_eval (s : Status) (b : Batcher) (hs : s.isOk = false) :
    Batcher.Abort s b =
      Batcher.Run { b with
        error_collector :=
          b.error_collector ++ b.ops_queue.map (fun (op : InFlightOp) => (op.yb_op.op_id, s)),
        combined_error := s, state := BatcherState.kAborted,
        session_flush_finished := b.session_flush_finished + 1 } := by
  unfold Batcher.Abort Batcher.FlushFinished Batcher.RunCallback
  dsimp only
  rw [if_pos rfl, if_neg (by simp [hs])]

def c2FixtureBatcher : Batcher :=
  { state := BatcherState.kTransactionPrepare, flush_callback := true,
    ops_queue := [{ yb_op := sampleWriteOp, partition_key := [], sequence_number := 0 }] }

/-- C2 counterexample: `Abort(e2)` after `Abort(e1)` (which ran
`FlushFinished`) is not a no-op — it changes the batcher state again
(collector entries are re-added, `combined_error_` is overwritten with the
second status, the session is re-notified, and the empty callback functor is
invoked), so the post-`FlushFinished` state is not left unchanged by the
second call. -/
theorem C2_counterexample :
    Batcher.Abort sampleErr2 (Batcher.Abort sampleErr c2FixtureBatcher) ≠
      Batcher.Abort sampleErr c2FixtureBatcher := by
  decide

/-- C2 (amended): for non-ok statuses `s1`, `s2`, running `Abort(s1)` then
`Abort(s2)` invokes the stored user callback exactly once, with `s1` — the
second call finds the callback slot already cleared — but the second call is
not a no-op: it appends one collector entry per queued op a second time,
overwrites the combined error with `s2`, keeps the state `kAborted`, and
trips an empty-functor invocation (`std::bad_function_call` in C++). -/
theorem C2_abort_twice (b : Batcher) (s1 s2 : Status)
    (hcb : b.flush_callback = true) (hinv : b.invocations = [])
    (h1 : s1.isOk = false) (h2 : s2.isOk = false) :
    (Batcher.Abort s1 b).invocations = [s1] ∧
    (Batcher.Abort s1 b).flush_callback = false ∧
    (Batcher.Abort s2 (Batcher.Abort s1 b)).invocations = [s1] ∧
    (Batcher.Abort s2 (Batcher.Abort s1 b)).flush_callback = false ∧
    (Batcher.Abort s2 (Batcher.Abort s1 b)).bad_function_call = true ∧
    (Batcher.Abort s2 (Batcher.Abort s1 b)).combined_error = s2 ∧
    (Batcher.Abort s2 (Batcher.Abort s1 b)).state = BatcherState.kAborted ∧
    (Batcher.Abort s2 (Batcher.Abort s1 b)).error_collector.length =
      b.error_collector.length + 2 * b.ops_queue.length := by
  rw [Abort_eval s1 b h1]
  unfold Batcher.Run
  dsimp only
  rw [if_pos hcb]
  rw [Abort_eval s2 _ h2]
  unfold Batcher.Run
  dsimp only
  rw [if_neg (by simp)]
  refine ⟨by simp [hinv], rfl, by simp [hinv], rfl, rfl, rfl, rfl, ?_⟩
  simp [List.length_append, List.length_map]
  omega

theorem C2_witness :
    c2FixtureBatcher.flush_callback = true ∧ c2FixtureBatcher.invocations = [] ∧
    sampleErr.isOk = false ∧ sampleErr2.isOk = false ∧
    ((Batcher.Abort sampleErr c2FixtureBatcher).invocations = [sampleErr] ∧
     (Batcher.Abort sampleErr c2FixtureBatcher).flush_callback = false ∧
     (Batcher.Abort sampleErr2 (Batcher.Abort sampleErr c2FixtureBatcher)).invocations =
       [sampleErr] ∧
     (Batcher.Abort sampleErr2 (Batcher.Abort sampleErr c2FixtureBatcher)).flush_callback =
       false ∧
     (Batcher.Abort sampleErr2 (Batcher.Abort sampleErr c2FixtureBatcher)).bad_function_call =
       true ∧
     (Batcher.Abort sampleErr2 (Batcher.Abort sampleErr c2FixtureBatcher)).combined_error =
       sampleErr2 ∧
     (Batcher.Abort sampleErr2 (Batcher.Abort sampleErr c2FixtureBatcher)).state =
       BatcherState.kAborted ∧
     (Batcher.Abort sampleErr2 (Batcher.Abort sampleErr c2FixtureBatcher)).error_collector.length =
       c2FixtureBatcher.error_collector.length + 2 * c2FixtureBatcher.ops_queue.length) :=
  ⟨rfl, rfl, rfl, rfl,
   C2_abort_twice c2FixtureBatcher sampleErr sampleErr2 rfl rfl rfl rfl⟩

/-! ## C5 -/

/-- The composite grouping key of an in-flight op: (tablet pointer identity,
operation group). -/
def opKey (op : InFlightOp) : Nat × OpGroup := (op.tabletPtr, op.yb_op.op_group)

theorem OpGroup.toNat_inj {x y : OpGroup} (h : x.toNat = y.toNat) : x = y := by
  cases x <;> cases y <;> first | rfl | exact absurd h (by decide)

/-- The sort comparator is the strict lexicographic order on
(tablet pointer, op-group value, sequence number). -/
theorem opLT_iff_lex (a b : InFlightOp) :
    opLT a b = true ↔
      (a.tabletPtr < b.tabletPtr ∨
       (a.tabletPtr = b.tabletPtr ∧
        (a.yb_op.op_group.toNat < b.yb_op.op_group.toNat ∨
         (a.yb_op.op_group.toNat = b.yb_op.op_group.toNat ∧
          a.sequence_number < b.sequence_number)))) := by
  unfold opLT
  by_cases h1 : a.tabletPtr = b.tabletPtr
  · by_cases h2 : a.yb_op.op_group = b.yb_op.op_group
    · simp [h1, h2]
    · have h2' : a.yb_op.op_group.toNat ≠ b.yb_op.op_group.toNat :=
        fun hc => h2 (OpGroup.toNat_inj hc)
      simp [h1, h2, h2']
  · simp [h1]

theorem opLT_asymm {a b : InFlightOp} (h : opLT a b = true) : opLT b a = false := by
  rw [opLT_iff_lex] at h
  by_contra hc
  rw [Bool.not_eq_false, opLT_iff_lex] at hc
  omega

theorem opLT_trans {a b c : InFlightOp} (hab : opLT a b = true)
    (hbc : opLT b c = true) : opLT a c = true := by
  rw [opLT_iff_lex] at hab hbc ⊢
  omega

theorem opLT_total_of_ne_seq {a b : InFlightOp}
    (h : a.sequence_number ≠ b.sequence_number) (hnot : opLT b a = false) :
    opLT a b = true := by
  rw [← Bool.not_eq_true, opLT_iff_lex] at hnot
  rw [opLT_iff_lex]
  omega

theorem opLT_seq_lt {a b : InFlightOp} (h : opLT a b = true)
    (hk : opKey a = opKey b) : a.sequence_number < b.sequence_number := by
  rw [opLT_iff_lex] at h
  rw [opKey, opKey, Prod.mk.injEq] at hk
  have : a.yb_op.op_group.toNat = b.yb_op.op_group.toNat := by rw [hk.2]
  omega

theorem insertOp_perm (x : InFlightOp) (l : List InFlightOp) :
    (insertOp x l).Perm (x :: l) := by
  induction l with
  | nil => exact List.Perm.refl _
  | cons y ys ih =>
    unfold insertOp
    split
    · exact List.Perm.refl _
    · exact (ih.cons y).trans (List.Perm.swap x y ys)

theorem sortOpsQueue_perm (l : List InFlightOp) : (sortOpsQueue l).Perm l := by
  induction l with
  | nil => exact List.Perm.refl _
  | cons x xs ih => exact (insertOp_perm x _).trans (ih.cons x)

theorem insertOp_pairwise (x : InFlightOp) (l : List InFlightOp)
    (hl : l.Pairwise (fun a b => opLT b a = false)) :
    (insertOp x l).Pairwise (fun a b => opLT b a = false) := by
  induction l with
  | nil => simp [insertOp]
  | cons y ys ih =>
    rw [List.pairwise_cons] at hl
    obtain ⟨hy, hys⟩ := hl
    unfold insertOp
    split
    · rename_i hxy
      rw [List.pairwise_cons]
      refine ⟨fun z hz => ?_, List.pairwise_cons.mpr ⟨hy, hys⟩⟩
      rcases List.mem_cons.mp hz with rfl | hz'
      · exact opLT_asymm hxy
      · by_contra hc
        rw [Bool.not_eq_false] at hc
        have hzy := opLT_trans hc hxy
        rw [hy z hz'] at hzy
        exact Bool.noConfusion hzy
    · rename_i hxy
      rw [Bool.not_eq_true] at hxy
      rw [List.pairwise_cons]
      refine ⟨fun z hz => ?_, ih hys⟩
      have hz' := (insertOp_perm x ys).mem_iff.mp hz
      rcases List.mem_cons.mp hz' with rfl | hz''
      · exact hxy
      · exact hy z hz''

theorem sortOpsQueue_pairwise (l : List InFlightOp) :
    (sortOpsQueue l).Pairwise (fun a b => opLT b a = false) := by
  induction l with
  | nil => exact List.Pairwise.nil
  | cons x xs ih => exact insertOp_pairwise x _ ih

theorem sortOpsQueue_pairwise_lt (l : List InFlightOp)
    (hseq : l.Pairwise (fun a b => a.sequence_number ≠ b.sequence_number)) :
    (sortOpsQueue l).Pairwise (fun a b => opLT a b = true) := by
  have hs := sortOpsQueue_pairwise l
  have hseq' : (sortOpsQueue l).Pairwise
      (fun a b => a.sequence_number ≠ b.sequence_number) :=
    (List.Perm.pairwise_iff (fun h => h.symm) (sortOpsQueue_perm l)).mpr hseq
  exact (hs.and hseq').imp (fun h => opLT_total_of_ne_seq h.2 h.1)

theorem drop_cons_lt_length {q rest : List InFlightOp} {idx : Nat} {op : InFlightOp}
    (h : op :: rest = q.drop idx) : idx < q.length := by
  by_contra hc
  push_neg at hc
  have : q.drop idx = [] := List.drop_eq_nil_iff.mpr hc
  rw [this] at h
  exact List.noConfusion h

theorem getD_of_drop_cons {q rest : List InFlightOp} {idx : Nat} {op : InFlightOp}
    (h : op :: rest = q.drop idx) (d : InFlightOp) : q.getD idx d = op := by
  have hlt : idx < q.length := drop_cons_lt_length h
  have h0 : (q.drop idx)[0]? = some op := by rw [← h]; simp
  rw [List.getElem?_drop, Nat.add_zero] at h0
  rw [List.getElem?_eq_getElem hlt] at h0
  rw [List.getD_eq_getElem q d hlt]
  exact Option.some.inj h0

/-- Invariant of the grouping loop: every produced group is a well-bounded
range of the queue all of whose elements share one (tablet, op-group) key. -/
theorem buildGroupsLoop_groups (q : List InFlightOp) (rest : List InFlightOp) :
    ∀ (gstart idx : Nat) (ckey : Nat × OpGroup) (acc gs : List (Nat × Nat)),
      rest = q.drop idx → gstart ≤ idx → idx ≤ q.length →
      (∀ j, gstart ≤ j → j < idx → opKey (q.getD j default) = ckey) →
      (∀ g ∈ acc, g.1 ≤ g.2 ∧ g.2 ≤ idx ∧
        ∀ j j', g.1 ≤ j → j < g.2 → g.1 ≤ j' → j' < g.2 →
          opKey (q.getD j default) = opKey (q.getD j' default)) →
      buildGroupsLoop gstart ckey idx acc rest = Except.ok gs →
      ∀ g ∈ gs, g.1 ≤ g.2 ∧ g.2 ≤ q.length ∧
        ∀ j j', g.1 ≤ j → j < g.2 → g.1 ≤ j' → j' < g.2 →
          opKey (q.getD j default) = opKey (q.getD j' default) := by
  induction rest with
  | nil =>
    intro gstart idx ckey acc gs h1 h2 h3 h4 h5 h6 g hg
    unfold buildGroupsLoop at h6
    have hlen : q.length ≤ idx := List.drop_eq_nil_iff.mp h1.symm
    have hidx : idx = q.length := Nat.le_antisymm h3 hlen
    rw [Except.ok.injEq] at h6
    subst h6
    rcases List.mem_append.mp hg with hacc | hlast
    · obtain ⟨ha1, ha2, ha3⟩ := h5 g hacc
      exact ⟨ha1, by omega, ha3⟩
    · rw [List.mem_singleton] at hlast
      subst hlast
      refine ⟨h2, by omega, fun j j' hj1 hj2 hj1' hj2' => ?_⟩
      rw [h4 j hj1 (by omega), h4 j' hj1' (by omega)]
  | cons op rest' ih =>
    intro gstart idx ckey acc gs h1 h2 h3 h4 h5 h6
    have hop : q.getD idx default = op := getD_of_drop_cons h1 default
    have hlt : idx < q.length := drop_cons_lt_length h1
    have hrest' : rest' = q.drop (idx + 1) := by
      have : q.drop (idx + 1) = (q.drop idx).drop 1 := by
        rw [List.drop_drop]
      rw [this, ← h1]
      rfl
    unfold buildGroupsLoop at h6
    split at h6
    · exact absurd h6 (by simp)
    · split at h6
      · rename_i hsame
        exact ih gstart (idx + 1) ckey acc gs hrest' (by omega) (by omega)
          (fun j hj1 hj2 => by
            rcases Nat.lt_or_ge j idx with hj | hj
            · exact h4 j hj1 hj
            · have : j = idx := by omega
              subst this
              rw [hop]
              exact hsame)
          (fun g hg => by
            obtain ⟨ha1, ha2, ha3⟩ := h5 g hg
            exact ⟨ha1, by omega, ha3⟩) h6
      · rename_i hdiff
        exact ih idx (idx + 1) (op.tabletPtr, op.yb_op.op_group)
          (acc ++ [(gstart, idx)]) gs hrest' (by omega) (by omega)
          (fun j hj1 hj2 => by
            have : j = idx := by omega
            subst this
            rw [hop]
            rfl)
          (fun g hg => by
            rcases List.mem_append.mp hg with hacc | hlast
            · obtain ⟨ha1, ha2, ha3⟩ := h5 g hacc
              exact ⟨ha1, by omega, ha3⟩
            · rw [List.mem_singleton] at hlast
              subst hlast
              refine ⟨h2, by omega, fun j j' hj1 hj2 hj1' hj2' => ?_⟩
              rw [h4 j hj1 (by omega), h4 j' hj1' (by omega)]) h6

theorem buildGroups_groups {s : List InFlightOp} {gs : List (Nat × Nat)}
    (h : buildGroups s = Except.ok gs) :
    ∀ g ∈ gs, g.1 ≤ g.2 ∧ g.2 ≤ s.length ∧
      ∀ j j', g.1 ≤ j → j < g.2 → g.1 ≤ j' → j' < g.2 →
        opKey (s.getD j default) = opKey (s.getD j' default) := by
  cases s with
  | nil =>
    unfold buildGroups at h
    rw [Except.ok.injEq] at h
    subst h
    intro g hg
    exact absurd hg (List.not_mem_nil g)
  | cons op rest =>
    unfold buildGroups at h
    exact buildGroupsLoop_groups (op :: rest) (op :: rest) 0 0
      (op.tabletPtr, op.yb_op.op_group) [] gs rfl (Nat.le_refl 0)
      (Nat.zero_le _) (fun j hj1 hj2 => by omega)
      (fun g hg => absurd hg (List.not_mem_nil g)) h

/-- C5: after `AllLookupsDone` sorts the surviving ops with the comparator
`opLT` (tablet pointer identity, `OpGroup` value, sequence number), the sorted
queue is a permutation of the input ordered by that composite key; ops with
equal (tablet, kind) appear in ascending sequence-number order; and within
every produced group — hence within every dispatched RPC, whose op range is
exactly a group — queue position order coincides with ascending sequence
number, so equal-partition-key ops that land in one group are dispatched in
submission order. -/
theorem C5_sort_and_group_order (q : List InFlightOp)
    (hseq : q.Pairwise (fun a b => a.sequence_number ≠ b.sequence_number)) :
    (sortOpsQueue q).Perm q ∧
    (sortOpsQueue q).Pairwise (fun a b => opLT a b = true) ∧
    (sortOpsQueue q).Pairwise (fun a b =>
      a.tabletPtr = b.tabletPtr → a.yb_op.op_group = b.yb_op.op_group →
        a.sequence_number < b.sequence_number) ∧
    (∀ gs, buildGroups (sortOpsQueue q) = Except.ok gs →
      ∀ g ∈ gs, ∀ j j', g.1 ≤ j → j < j' → j' < g.2 →
        ((sortOpsQueue q).getD j default).sequence_number <
          ((sortOpsQueue q).getD j' default).sequence_number) := by
  have hperm := sortOpsQueue_perm q
  have hlt := sortOpsQueue_pairwise_lt q hseq
  refine ⟨hperm, hlt,
    hlt.imp (fun h ht hg => opLT_seq_lt h (by simp [opKey, ht, hg])), ?_⟩
  intro gs hgs g hg j j' hj1 hjj hj2
  obtain ⟨hb1, hb2, hkey⟩ := buildGroups_groups hgs g hg
  have hjlen : j < (sortOpsQueue q).length := by omega
  have hj'len : j' < (sortOpsQueue q).length := by omega
  have hR := (List.pairwise_iff_getElem.mp hlt) j j' hjlen hj'len hjj
  have hk := hkey j j' hj1 (by omega) (by omega) (by omega)
  rw [List.getD_eq_getElem _ default hjlen, List.getD_eq_getElem _ default hj'len] at hk ⊢
  exact opLT_seq_lt hR hk

def c5FixtureQueue : List InFlightOp :=
  [{ yb_op := sampleWriteOp2, partition_key := [1],
     tablet := some { ptr := 2, partition_list_version := 0 }, sequence_number := 0 },
   { yb_op := sampleWriteOp, partition_key := [0],
     tablet := some sampleTablet, sequence_number := 1 },
   { yb_op := { op_id := 4, op_group := OpGroup.kLeaderRead }, partition_key := [0],
     tablet := some sampleTablet, sequence_number := 2 }]

theorem C5_witness :
    c5FixtureQueue.Pairwise (fun a b => a.sequence_number ≠ b.sequence_number) ∧
    ((sortOpsQueue c5FixtureQueue).Perm c5FixtureQueue ∧
     (sortOpsQueue c5FixtureQueue).Pairwise (fun a b => opLT a b = true) ∧
     (sortOpsQueue c5FixtureQueue).Pairwise (fun a b =>
       a.tabletPtr = b.tabletPtr → a.yb_op.op_group = b.yb_op.op_group →
         a.sequence_number < b.sequence_number) ∧
     (∀ gs, buildGroups (sortOpsQueue c5FixtureQueue) = Except.ok gs →
       ∀ g ∈ gs, ∀ j j', g.1 ≤ j → j < j' → j' < g.2 →
         ((sortOpsQueue c5FixtureQueue).getD j default).sequence_number <
           ((sortOpsQueue c5FixtureQueue).getD j' default).sequence_number)) :=
  ⟨by decide, C5_sort_and_group_order c5FixtureQueue (by decide)⟩

/-! ## C4 -/

theorem Run_ops_queue (b : Batcher) : (Batcher.Run b).ops_queue = b.ops_queue := by
  unfold Batcher.Run; split <;> rfl

theorem FlushFinished_ops_queue (b : Batcher) :
    (Batcher.FlushFinished b).ops_queue = b.ops_queue := by
  unfold Batcher.FlushFinished Batcher.RunCallback Batcher.Run
  dsimp only
  split <;> split <;> split <;> rfl

theorem Abort_ops_queue (s : Status) (b : Batcher) :
    (Batcher.Abort s b).ops_queue = b.ops_queue := by
  unfold Batcher.Abort
  rw [FlushFinished_ops_queue]

theorem ExecuteOperations_ops_queue (b : Batcher) (initial : Bool) :
    (Batcher.ExecuteOperations b initial).ops_queue = b.ops_queue := by
  unfold Batcher.ExecuteOperations
  split
  · rfl
  · split <;> rfl

theorem collectLoop_fst (cfg : Config) (q : List InFlightOp)
    (m : List (PartitionKey × Status)) :
    (collectLoop cfg q m).1 = q.map (partitionSanity cfg) := by
  induction q generalizing m with
  | nil => rfl
  | cons op rest ih =>
    unfold collectLoop
    dsimp only
    rw [List.map_cons, ih]

theorem emplaceIfAbsent_self_mem (m : List (PartitionKey × Status))
    (k : PartitionKey) (v : Status) : ∃ p ∈ emplaceIfAbsent m k v, p.1 = k := by
  unfold emplaceIfAbsent
  split
  · rename_i h
    rw [List.any_eq_true] at h
    obtain ⟨p, hp, hpk⟩ := h
    exact ⟨p, hp, of_decide_eq_true hpk⟩
  · exact ⟨(k, v), List.mem_append.mpr (Or.inr (List.mem_singleton.mpr rfl)), rfl⟩

theorem emplaceIfAbsent_mono (m : List (PartitionKey × Status))
    (k k' : PartitionKey) (v : Status) (h : ∃ p ∈ m, p.1 = k') :
    ∃ p ∈ emplaceIfAbsent m k v, p.1 = k' := by
  unfold emplaceIfAbsent
  split
  · exact h
  · obtain ⟨p, hp, hpk⟩ := h
    exact ⟨p, List.mem_append.mpr (Or.inl hp), hpk⟩

theorem collectLoop_keys_mono (cfg : Config) (q : List InFlightOp)
    (m : List (PartitionKey × Status)) (k : PartitionKey)
    (h : ∃ p ∈ m, p.1 = k) : ∃ p ∈ (collectLoop cfg q m).2, p.1 = k := by
  induction q generalizing m with
  | nil => exact h
  | cons op rest ih =>
    unfold collectLoop
    dsimp only
    split
    · exact ih m h
    · exact ih _ (emplaceIfAbsent_mono _ _ _ _ h)

theorem collectLoop_keys (cfg : Config) (q : List InFlightOp)
    (m : List (PartitionKey × Status)) (k : PartitionKey)
    (h : ∃ op ∈ (collectLoop cfg q m).1, op.partition_key = k ∧ op.error.isOk = false) :
    ∃ p ∈ (collectLoop cfg q m).2, p.1 = k := by
  induction q generalizing m with
  | nil =>
    obtain ⟨op, hop, _⟩ := h
    exact absurd hop (List.not_mem_nil op)
  | cons op rest ih =>
    rw [collectLoop_fst, List.map_cons] at h
    obtain ⟨o, ho, hk1, hk2⟩ := h
    unfold collectLoop
    dsimp only
    rcases List.mem_cons.mp ho with rfl | ho'
    · rw [if_neg (by rw [hk2]; exact Bool.false_ne_true)]
      exact collectLoop_keys_mono cfg rest _ k
        (by rw [← hk1]; exact emplaceIfAbsent_self_mem _ _ _)
    · have hrest : ∃ o ∈ (collectLoop cfg rest
          (if (partitionSanity cfg op).error.isOk = true then m
           else emplaceIfAbsent m (partitionSanity cfg op).partition_key
             (partitionSanity cfg op).error)).1,
          o.partition_key = k ∧ o.error.isOk = false := by
        rw [collectLoop_fst]
        exact ⟨o, ho', hk1, hk2⟩
      split
      · rename_i hok
        rw [if_pos hok] at hrest
        exact ih m hrest
      · rename_i hok
        rw [if_neg hok] at hrest
        exact ih _ hrest

theorem collectLoop_values (cfg : Config) (q : List InFlightOp)
    (m : List (PartitionKey × Status)) (hm : ∀ p ∈ m, p.2.isOk = false) :
    ∀ p ∈ (collectLoop cfg q m).2, p.2.isOk = false := by
  induction q generalizing m with
  | nil => exact hm
  | cons op rest ih =>
    unfold collectLoop
    dsimp only
    split
    · exact ih m hm
    · rename_i hok
      refine ih _ (fun p hp => ?_)
      unfold emplaceIfAbsent at hp
      split at hp
      · exact hm p hp
      · rcases List.mem_append.mp hp with hp' | hp'
        · exact hm p hp'
        · rw [List.mem_singleton] at hp'
          subst hp'
          rw [Bool.not_eq_true] at hok
          exact hok

theorem lookup_isSome_of_mem_keys (m : List (PartitionKey × Status))
    (k : PartitionKey) (h : ∃ p ∈ m, p.1 = k) : (m.lookup k).isSome = true := by
  induction m with
  | nil =>
    obtain ⟨p, hp, _⟩ := h
    exact absurd hp (List.not_mem_nil p)
  | cons e es ih =>
    rw [List.lookup_cons]
    split
    · rfl
    · rename_i hne
      obtain ⟨p, hp, hpk⟩ := h
      rcases List.mem_cons.mp hp with rfl | hp'
      · rw [hpk] at hne
        simp at hne
      · exact ih ⟨p, hp', hpk⟩

theorem lookup_value_not_ok (m : List (PartitionKey × Status)) (k : PartitionKey)
    (v : Status) (hm : ∀ p ∈ m, p.2.isOk = false) (h : m.lookup k = some v) :
    v.isOk = false := by
  induction m with
  | nil => exact absurd h (by simp)
  | cons e es ih =>
    rw [List.lookup_cons] at h
    split at h
    · rename_i heq
      rw [Option.some.injEq] at h
      subst h
      exact hm e (List.mem_cons_self _ _)
    · exact ih (fun p hp => hm p (List.mem_cons_of_mem _ hp)) h

theorem CombineError_collector_length (cfg : Config) (b : Batcher) (op : InFlightOp) :
    (Batcher.CombineError cfg b op).error_collector.length =
      b.error_collector.length + 1 := by
  unfold Batcher.CombineError
  dsimp only
  split <;> split <;> (try split) <;> (try split) <;> simp

theorem eraseLoop_kept (cfg : Config) (errors : List (PartitionKey × Status))
    (hvals : ∀ p ∈ errors, p.2.isOk = false) :
    ∀ (q : List InFlightOp) (b : Batcher),
      ∀ op ∈ (eraseLoop cfg errors b q).2, errors.lookup op.partition_key = none := by
  intro q
  induction q with
  | nil =>
    intro b op hop
    exact absurd hop (List.not_mem_nil op)
  | cons o rest ih =>
    intro b op hop
    unfold eraseLoop at hop
    dsimp only at hop
    by_cases hok : o.error.isOk = true
    · cases hlk : errors.lookup o.partition_key with
      | some e =>
        have he : e.isOk = false := lookup_value_not_ok errors o.partition_key e hvals hlk
        simp only [hok, hlk, if_true, ite_true] at hop
        simp only [he, Bool.false_eq_true, if_false, ite_false] at hop
        exact ih _ op hop
      | none =>
        simp only [hok, hlk, if_true, ite_true] at hop
        rcases List.mem_cons.mp hop with rfl | hop'
        · exact hlk
        · exact ih _ op hop'
    · rw [Bool.not_eq_true] at hok
      simp only [hok, Bool.false_eq_true, if_false, ite_false] at hop
      exact ih _ op hop

theorem eraseLoop_collector (cfg : Config) (errors : List (PartitionKey × Status)) :
    ∀ (q : List InFlightOp) (b : Batcher),
      (eraseLoop cfg errors b q).1.error_collector.length +
        (eraseLoop cfg errors b q).2.length =
      b.error_collector.length + q.length := by
  intro q
  induction q with
  | nil => intro b; simp [eraseLoop]
  | cons o rest ih =>
    intro b
    unfold eraseLoop
    dsimp only
    generalize (if o.error.isOk = true then
        match errors.lookup o.partition_key with
        | some e => { o with error := e }
        | none => o
      else o) = op1
    split
    · dsimp only
      rw [List.length_cons, List.length_cons]
      have := ih b
      omega
    · rw [ih (Batcher.CombineError cfg b op1), CombineError_collector_length,
        List.length_cons]
      omega

/-- C4: error contagion by partition key.  If, after the lookup phase and the
partition sanity check (`CollectOpsErrors`), some op with partition key `k`
carries a non-ok error, then after `AllLookupsDone` no op with partition key
`k` survives in the queue — hence none appears in any dispatched RPC's op
range — and the erase pass feeds exactly one error-collector entry per
removed op. -/
theorem C4_error_contagion (cfg : Config) (b : Batcher) (k : PartitionKey)
    (hst : b.state = BatcherState.kResolvingTablets)
    (hk : ∃ op ∈ (Batcher.CollectOpsErrors cfg b.ops_queue).1,
            op.partition_key = k ∧ op.error.isOk = false) :
    (∀ op ∈ (Batcher.AllLookupsDone cfg b).ops_queue, op.partition_key ≠ k) ∧
    (∀ rpc ∈ (Batcher.AllLookupsDone cfg b).rpcs,
      ∀ op ∈ ((Batcher.AllLookupsDone cfg b).ops_queue.drop rpc.rbegin).take
          (rpc.rend - rpc.rbegin), op.partition_key ≠ k) ∧
    (∀ b' : Batcher,
      (eraseLoop cfg (Batcher.CollectOpsErrors cfg b.ops_queue).2 b'
          (Batcher.CollectOpsErrors cfg b.ops_queue).1).1.error_collector.length +
        (eraseLoop cfg (Batcher.CollectOpsErrors cfg b.ops_queue).2 b'
          (Batcher.CollectOpsErrors cfg b.ops_queue).1).2.length =
      b'.error_collector.length +
        (Batcher.CollectOpsErrors cfg b.ops_queue).1.length) := by
  have hkeys : ∃ p ∈ (Batcher.CollectOpsErrors cfg b.ops_queue).2, p.1 = k := by
    obtain ⟨op, hop, h1, h2⟩ := hk
    exact collectLoop_keys cfg b.ops_queue [] k ⟨op, hop, h1, h2⟩
  have hvals : ∀ p ∈ (Batcher.CollectOpsErrors cfg b.ops_queue).2, p.2.isOk = false :=
    collectLoop_values cfg b.ops_queue []
      (fun p hp => absurd hp (List.not_mem_nil p))
  have hmain : ∀ op ∈ (Batcher.AllLookupsDone cfg b).ops_queue, op.partition_key ≠ k := by
    intro op hop hkk
    unfold Batcher.AllLookupsDone at hop
    rw [if_neg (by simp [hst])] at hop
    dsimp only at hop
    have hfin : ∀ (bx : Batcher) (qx : List InFlightOp),
        op ∈ (eraseLoop cfg (Batcher.CollectOpsErrors cfg b.ops_queue).2 bx qx).2 →
          False := by
      intro bx qx hmem
      have hnone := eraseLoop_kept cfg _ hvals qx bx op hmem
      rw [hkk] at hnone
      have hsome := lookup_isSome_of_mem_keys _ k hkeys
      rw [hnone] at hsome
      exact Bool.noConfusion hsome
    split at hop
    · rename_i hnil
      obtain ⟨p, hp, _⟩ := hkeys
      rw [hnil] at hp
      exact absurd hp (List.not_mem_nil p)
    · split at hop
      · rw [FlushFinished_ops_queue] at hop
        dsimp only at hop
        exact hfin _ _ hop
      · split at hop
        · rw [Abort_ops_queue] at hop
          dsimp only at hop
          exact hfin _ _ ((sortOpsQueue_perm _).mem_iff.mp hop)
        · rw [ExecuteOperations_ops_queue] at hop
          dsimp only at hop
          exact hfin _ _ ((sortOpsQueue_perm _).mem_iff.mp hop)
  refine ⟨hmain, fun rpc _ op hop => ?_, fun b' => eraseLoop_collector cfg _ _ b'⟩
  exact hmain op (List.mem_of_mem_drop (List.mem_of_mem_take hop))

def c4FixtureBatcher : Batcher :=
  { state := BatcherState.kResolvingTablets,
    ops_queue :=
      [{ yb_op := sampleWriteOp, partition_key := [0], tablet := none,
         error := sampleErr, sequence_number := 0 },
       { yb_op := sampleWriteOp2, partition_key := [0], tablet := some sampleTablet,
         sequence_number := 1 }] }

theorem C4_witness :
    c4FixtureBatcher.state = BatcherState.kResolvingTablets ∧
    (∃ op ∈ (Batcher.CollectOpsErrors sampleCfg c4FixtureBatcher.ops_queue).1,
      op.partition_key = [0] ∧ op.error.isOk = false) ∧
    ((∀ op ∈ (Batcher.AllLookupsDone sampleCfg c4FixtureBatcher).ops_queue,
        op.partition_key ≠ [0]) ∧
     (∀ rpc ∈ (Batcher.AllLookupsDone sampleCfg c4FixtureBatcher).rpcs,
       ∀ op ∈ ((Batcher.AllLookupsDone sampleCfg c4FixtureBatcher).ops_queue.drop
           rpc.rbegin).take (rpc.rend - rpc.rbegin), op.partition_key ≠ [0]) ∧
     (∀ b' : Batcher,
       (eraseLoop sampleCfg
           (Batcher.CollectOpsErrors sampleCfg c4FixtureBatcher.ops_queue).2 b'
           (Batcher.CollectOpsErrors sampleCfg c4FixtureBatcher.ops_queue).1).1.error_collector.length +
         (eraseLoop sampleCfg
           (Batcher.CollectOpsErrors sampleCfg c4FixtureBatcher.ops_queue).2 b'
           (Batcher.CollectOpsErrors sampleCfg c4FixtureBatcher.ops_queue).1).2.length =
       b'.error_collector.length +
         (Batcher.CollectOpsErrors sampleCfg c4FixtureBatcher.ops_queue).1.length)) :=
  ⟨rfl, by decide, C4_error_contagion sampleCfg c4FixtureBatcher [0] rfl (by decide)⟩

/-! ## C7 -/

theorem CombineError_preserves (cfg : Config) (b : Batcher) (op : InFlightOp) :
    (Batcher.CombineError cfg b op).flush_callback = b.flush_callback ∧
    (Batcher.CombineError cfg b op).invocations = b.invocations ∧
    (Batcher.CombineError cfg b op).rpcs = b.rpcs ∧
    (Batcher.CombineError cfg b op).state = b.state := by
  unfold Batcher.CombineError
  dsimp only
  split <;> split <;> (try split) <;> (try split) <;> exact ⟨rfl, rfl, rfl, rfl⟩

theorem eraseLoop_preserves (cfg : Config) (errors : List (PartitionKey × Status)) :
    ∀ (q : List InFlightOp) (b : Batcher),
      (eraseLoop cfg errors b q).1.flush_callback = b.flush_callback ∧
      (eraseLoop cfg errors b q).1.invocations = b.invocations ∧
      (eraseLoop cfg errors b q).1.rpcs = b.rpcs ∧
      (eraseLoop cfg errors b q).1.state = b.state := by
  intro q
  induction q with
  | nil => intro b; exact ⟨rfl, rfl, rfl, rfl⟩
  | cons o rest ih =>
    intro b
    unfold eraseLoop
    dsimp only
    generalize (if o.error.isOk = true then
        match errors.lookup o.partition_key with
        | some e => { o with error := e }
        | none => o
      else o) = op1
    split
    · exact ih b
    · obtain ⟨h1, h2, h3, h4⟩ := ih (Batcher.CombineError cfg b op1)
      obtain ⟨g1, g2, g3, g4⟩ := CombineError_preserves cfg b op1
      exact ⟨h1.trans g1, h2.trans g2, h3.trans g3, h4.trans g4⟩

theorem buildGroupsLoop_error_of_mismatch (rest : List InFlightOp) :
    ∀ (gstart : Nat) (ckey : Nat × OpGroup) (idx : Nat) (acc : List (Nat × Nat)),
      (∃ op ∈ rest, hasVersionMismatch op = true) →
      buildGroupsLoop gstart ckey idx acc rest = Except.error versionMismatchStatus := by
  induction rest with
  | nil =>
    intro _ _ _ _ h
    obtain ⟨op, hop, _⟩ := h
    exact absurd hop (List.not_mem_nil op)
  | cons op rest' ih =>
    intro gstart ckey idx acc h
    unfold buildGroupsLoop
    by_cases hm : hasVersionMismatch op = true
    · rw [if_pos hm]
    · rw [if_neg hm]
      have h' : ∃ o ∈ rest', hasVersionMismatch o = true := by
        obtain ⟨o, ho, hmo⟩ := h
        rcases List.mem_cons.mp ho with rfl | ho'
        · exact absurd hmo hm
        · exact ⟨o, ho', hmo⟩
      split
      · exact ih _ _ _ _ h'
      · exact ih _ _ _ _ h'

theorem buildGroups_error_of_mismatch {s : List InFlightOp}
    (h : ∃ op ∈ s, hasVersionMismatch op = true) :
    buildGroups s = Except.error versionMismatchStatus := by
  cases s with
  | nil =>
    obtain ⟨op, hop, _⟩ := h
    exact absurd hop (List.not_mem_nil op)
  | cons op rest =>
    unfold buildGroups
    exact buildGroupsLoop_error_of_mismatch _ _ _ _ _ h

/-- The queue `AllLookupsDone` goes on to sort and dispatch: the checked queue
after the erase pass (which runs only when some per-op error was recorded). -/
def survivingOps (cfg : Config) (b : Batcher) : List InFlightOp :=
  let qe := Batcher.CollectOpsErrors cfg b.ops_queue
  if qe.2 = [] then qe.1
  else (eraseLoop cfg qe.2
    { b with ops_queue := qe.1, state := BatcherState.kTransactionPrepare } qe.1).2

/-- C7: if any surviving op declares a partition-list version different from
its resolved tablet's version, `AllLookupsDone` aborts the entire batch: the
state becomes `kAborted`, no RPC is created, the combined status is the
`Aborted` status carrying client error
`kTablePartitionListVersionDoesNotMatch`, and the user callback fires with
exactly that status. -/
theorem C7_version_mismatch_aborts (cfg : Config) (b : Batcher)
    (hst : b.state = BatcherState.kResolvingTablets)
    (hcb : b.flush_callback = true) (hinv : b.invocations = [])
    (hrpcs : b.rpcs = [])
    (hmis : ∃ op ∈ sortOpsQueue (survivingOps cfg b), hasVersionMismatch op = true) :
    (Batcher.AllLookupsDone cfg b).state = BatcherState.kAborted ∧
    (Batcher.AllLookupsDone cfg b).rpcs = [] ∧
    (Batcher.AllLookupsDone cfg b).combined_error = versionMismatchStatus ∧
    versionMismatchStatus.clientError =
      some ClientErrorCode.kTablePartitionListVersionDoesNotMatch ∧
    (Batcher.AllLookupsDone cfg b).invocations = [versionMismatchStatus] := by
  unfold survivingOps at hmis
  dsimp only at hmis
  unfold Batcher.AllLookupsDone
  rw [if_neg (by simp [hst])]
  dsimp only
  split
  · rename_i hqe
    rw [if_pos hqe] at hmis
    split
    · rename_i hnil
      exfalso
      dsimp only at hnil
      rw [hnil] at hmis
      obtain ⟨op, hop, _⟩ := hmis
      simp [sortOpsQueue] at hop
    · split
      · rename_i st hbg
        have hlem := buildGroups_error_of_mismatch hmis
        dsimp only at hbg
        rw [hlem] at hbg
        rw [Except.error.injEq] at hbg
        subst hbg
        rw [Abort_eval versionMismatchStatus _ rfl]
        unfold Batcher.Run
        dsimp only
        rw [if_pos hcb]
        exact ⟨rfl, hrpcs, rfl, rfl, by rw [hinv]; rfl⟩
      · rename_i gs hbg
        have hlem := buildGroups_error_of_mismatch hmis
        dsimp only at hbg
        rw [hlem] at hbg
        exact Except.noConfusion hbg
  · rename_i hqe
    rw [if_neg hqe] at hmis
    split
    · rename_i hnil
      exfalso
      dsimp only at hnil
      rw [hnil] at hmis
      obtain ⟨op, hop, _⟩ := hmis
      simp [sortOpsQueue] at hop
    · split
      · rename_i st hbg
        have hlem := buildGroups_error_of_mismatch hmis
        dsimp only at hbg
        rw [hlem] at hbg
        rw [Except.error.injEq] at hbg
        subst hbg
        rw [Abort_eval versionMismatchStatus _ rfl]
        unfold Batcher.Run
        dsimp only
        rw [(eraseLoop_preserves cfg _ _ _).1]
        dsimp only
        rw [if_pos hcb]
        refine ⟨rfl, ?_, rfl, rfl, ?_⟩
        · rw [(eraseLoop_preserves cfg _ _ _).2.2.1]
          dsimp only
          exact hrpcs
        · rw [(eraseLoop_preserves cfg _ _ _).2.1]
          dsimp only
          rw [hinv]
          rfl
      · rename_i gs hbg
        have hlem := buildGroups_error_of_mismatch hmis
        dsimp only at hbg
        rw [hlem] at hbg
        exact Except.noConfusion hbg

def c7FixtureBatcher : Batcher :=
  { state := BatcherState.kResolvingTablets, flush_callback := true,
    ops_queue := [{ yb_op := { op_id := 9, partition_list_version := some 7 },
                    partition_key := [0],
                    tablet := some { ptr := 4, partition_list_version := 8 },
                    sequence_number := 0 }] }

theorem C7_witness :
    c7FixtureBatcher.state = BatcherState.kResolvingTablets ∧
    c7FixtureBatcher.flush_callback = true ∧
    c7FixtureBatcher.invocations = [] ∧
    c7FixtureBatcher.rpcs = [] ∧
    (∃ op ∈ sortOpsQueue (survivingOps sampleCfg c7FixtureBatcher),
      hasVersionMismatch op = true) ∧
    ((Batcher.AllLookupsDone sampleCfg c7FixtureBatcher).state =
        BatcherState.kAborted ∧
      (Batcher.AllLookupsDone sampleCfg c7FixtureBatcher).rpcs = [] ∧
      (Batcher.AllLookupsDone sampleCfg c7FixtureBatcher).combined_error =
        versionMismatchStatus ∧
      versionMismatchStatus.clientError =
        some ClientErrorCode.kTablePartitionListVersionDoesNotMatch ∧
      (Batcher.AllLookupsDone sampleCfg c7FixtureBatcher).invocations =
        [versionMismatchStatus]) :=
  ⟨rfl, rfl, rfl, rfl, by decide,
   C7_version_mismatch_aborts sampleCfg c7FixtureBatcher rfl rfl rfl rfl (by decide)⟩

/-! ## C3 -/

theorem FlushFinished_done (b : Batcher) (hcb : b.flush_callback = true) :
    (Batcher.FlushFinished b).flush_callback = false ∧
    (Batcher.FlushFinished b).invocations.length = b.invocations.length + 1 ∧
    ((Batcher.FlushFinished b).state = BatcherState.kComplete ∨
     (Batcher.FlushFinished b).state = BatcherState.kAborted) := by
  unfold Batcher.FlushFinished Batcher.RunCallback Batcher.Run
  dsimp only
  split <;> split <;> simp_all

theorem Abort_done (s : Status) (b : Batcher) (hcb : b.flush_callback = true) :
    (Batcher.Abort s b).flush_callback = false ∧
    (Batcher.Abort s b).invocations.length = b.invocations.length + 1 ∧
    ((Batcher.Abort s b).state = BatcherState.kComplete ∨
     (Batcher.Abort s b).state = BatcherState.kAborted) := by
  unfold Batcher.Abort
  exact FlushFinished_done _ hcb

theorem prepareSuspends_false (b : Batcher) : prepareSuspends b false = false := by
  unfold prepareSuspends
  split <;> rfl

theorem prepareSuspends_pending {b : Batcher} (h : prepareSuspends b true = true) :
    ∃ st, txnPendingStatus b = some st := by
  unfold prepareSuspends at h
  unfold txnPendingStatus
  split at h
  · rename_i st heq
    exact ⟨st, rfl⟩
  · exact Bool.noConfusion h

theorem buildGroupsLoop_length (rest : List InFlightOp) :
    ∀ (gstart idx : Nat) (ckey : Nat × OpGroup) (acc gs : List (Nat × Nat)),
      buildGroupsLoop gstart ckey idx acc rest = Except.ok gs →
      acc.length < gs.length := by
  induction rest with
  | nil =>
    intro gstart idx ckey acc gs h
    unfold buildGroupsLoop at h
    rw [Except.ok.injEq] at h
    subst h
    simp
  | cons op rest' ih =>
    intro gstart idx ckey acc gs h
    unfold buildGroupsLoop at h
    split at h
    · exact absurd h (by simp)
    · split at h
      · exact ih _ _ _ _ _ h
      · have := ih _ _ _ _ _ h
        simp at this
        omega

theorem buildGroups_ne_nil {s : List InFlightOp} {gs : List (Nat × Nat)}
    (hs : s ≠ []) (h : buildGroups s = Except.ok gs) : gs ≠ [] := by
  cases s with
  | nil => exact absurd rfl hs
  | cons op rest =>
    unfold buildGroups at h
    have := buildGroupsLoop_length _ _ _ _ _ _ h
    intro hnil
    rw [hnil] at this
    simp at this

theorem ExecuteOperations_cases (b : Batcher) (initial : Bool)
    (hst : b.state = BatcherState.kTransactionPrepare) :
    (prepareSuspends b initial = true ∧ Batcher.ExecuteOperations b initial = b) ∨
    ((Batcher.ExecuteOperations b initial).state = BatcherState.kTransactionReady ∧
     (Batcher.ExecuteOperations b initial).outstanding_rpcs =
       (Batcher.ExecuteOperations b initial).rpcs.length ∧
     (Batcher.ExecuteOperations b initial).rpcs.length = b.groups.length ∧
     (Batcher.ExecuteOperations b initial).flush_callback = b.flush_callback ∧
     (Batcher.ExecuteOperations b initial).invocations = b.invocations) := by
  unfold Batcher.ExecuteOperations
  by_cases hp : prepareSuspends b initial = true
  · left
    rw [if_pos hp]
    exact ⟨hp, rfl⟩
  · right
    rw [if_neg hp]
    rw [if_neg (by simp [hst])]
    dsimp only
    refine ⟨rfl, rfl, by simp, rfl, rfl⟩

theorem MaterializeOps_cases (l : List YBOp) : ∀ (b : Batcher),
    b.flush_callback = true →
    ((Batcher.MaterializeOps b l).state = b.state ∧
     (Batcher.MaterializeOps b l).flush_callback = true ∧
     (Batcher.MaterializeOps b l).invocations = b.invocations ∧
     (Batcher.MaterializeOps b l).ops_queue.length = b.ops_queue.length + l.length ∧
     (Batcher.MaterializeOps b l).outstanding_lookups = b.outstanding_lookups ∧
     (Batcher.MaterializeOps b l).transaction = b.transaction) ∨
    ((Batcher.MaterializeOps b l).flush_callback = false ∧
     (Batcher.MaterializeOps b l).invocations.length = b.invocations.length + 1 ∧
     ((Batcher.MaterializeOps b l).state = BatcherState.kComplete ∨
      (Batcher.MaterializeOps b l).state = BatcherState.kAborted)) := by
  induction l with
  | nil =>
    intro b hcb
    left
    exact ⟨rfl, hcb, rfl, by simp [Batcher.MaterializeOps], rfl, rfl⟩
  | cons op rest ih =>
    intro b hcb
    unfold Batcher.MaterializeOps
    dsimp only
    split
    · right
      exact FlushFinished_done _ hcb
    · rename_i key heq
      by_cases hc : op.is_hash_partitioning = true ∧ key = [] ∧ op.read_only = false
      · rw [if_pos hc]
        right
        exact FlushFinished_done _ hcb
      · rw [if_neg hc]
        rcases ih { b with ops_queue := b.ops_queue ++
            [{ yb_op := if op.is_hash_partitioning = true ∧ key ≠ [] then
                 { op with hash_code := some (decodeMultiColumnHashValue key) } else op,
               partition_key := key, tablet := none, error := okStatus,
               sequence_number := b.ops_queue.length }] } hcb with hA | hB
        · left
          obtain ⟨h1, h2, h3, h4, h5, h6⟩ := hA
          refine ⟨h1, h2, h3, ?_, h5, h6⟩
          rw [h4]
          simp
          omega
        · right
          exact hB

theorem FlushAsync_cases (retry : Bool) (b : Batcher)
    (hst : b.state = BatcherState.kGatheringOps) (hq : b.ops_queue = [])
    (hinv : b.invocations = []) :
    ((Batcher.FlushAsync retry b).state = BatcherState.kResolvingTablets ∧
     (Batcher.FlushAsync retry b).flush_callback = true ∧
     (Batcher.FlushAsync retry b).invocations = [] ∧
     (Batcher.FlushAsync retry b).ops_queue.length = b.ops.length ∧
     (Batcher.FlushAsync retry b).outstanding_lookups = b.ops.length) ∨
    ((Batcher.FlushAsync retry b).flush_callback = false ∧
     (Batcher.FlushAsync retry b).invocations.length = 1 ∧
     ((Batcher.FlushAsync retry b).state = BatcherState.kComplete ∨
      (Batcher.FlushAsync retry b).state = BatcherState.kAborted)) := by
  unfold Batcher.FlushAsync
  rw [if_neg (by simp [hst])]
  dsimp only
  rcases MaterializeOps_cases b.ops
    { b with state := BatcherState.kResolvingTablets,
             outstanding_lookups := b.ops.length,
             flush_callback := true,
             session_flush_started := b.session_flush_started + 1,
             txn_expected_ops := if b.transaction.isSome && !retry
               then some b.ops.length else b.txn_expected_ops } rfl with hA | hB
  · left
    obtain ⟨h1, h2, h3, h4, h5, _⟩ := hA
    refine ⟨h1.trans rfl, h2, h3.trans hinv, ?_, h5.trans rfl⟩
    rw [h4]
    dsimp only
    rw [hq]
    simp
  · right
    obtain ⟨h1, h2, h3⟩ := hB
    refine ⟨h1, ?_, h3⟩
    rw [h2]
    dsimp only
    rw [hinv]
    rfl

/-- The three possible situations after the lookup rendezvous: the flush
already finished (callback ran exactly once), the batcher suspended on a
pending transaction prepare, or the RPCs were dispatched. -/
def FlushOutcome (r : Batcher) : Prop :=
  (r.flush_callback = false ∧ r.invocations.length = 1 ∧
    (r.state = BatcherState.kComplete ∨ r.state = BatcherState.kAborted)) ∨
  (r.state = BatcherState.kTransactionPrepare ∧ r.flush_callback = true ∧
    r.invocations = [] ∧ (∃ st, txnPendingStatus r = some st) ∧ r.groups ≠ []) ∨
  (r.state = BatcherState.kTransactionReady ∧ r.flush_callback = true ∧
    r.invocations = [] ∧ r.outstanding_rpcs = r.rpcs.length ∧ r.rpcs.length ≥ 1)

theorem FlushFinished_done' (b : Batcher) (hcb : b.flush_callback = true)
    (hinv : b.invocations = []) :
    (Batcher.FlushFinished b).flush_callback = false ∧
    (Batcher.FlushFinished b).invocations.length = 1 ∧
    ((Batcher.FlushFinished b).state = BatcherState.kComplete ∨
     (Batcher.FlushFinished b).state = BatcherState.kAborted) := by
  obtain ⟨h1, h2, h3⟩ := FlushFinished_done b hcb
  exact ⟨h1, by rw [h2, hinv]; rfl, h3⟩

theorem Abort_done' (s : Status) (b : Batcher) (hcb : b.flush_callback = true)
    (hinv : b.invocations = []) :
    (Batcher.Abort s b).flush_callback = false ∧
    (Batcher.Abort s b).invocations.length = 1 ∧
    ((Batcher.Abort s b).state = BatcherState.kComplete ∨
     (Batcher.Abort s b).state = BatcherState.kAborted) := by
  obtain ⟨h1, h2, h3⟩ := Abort_done s b hcb
  exact ⟨h1, by rw [h2, hinv]; rfl, h3⟩

theorem sortOpsQueue_eq_nil {l : List InFlightOp} (h : sortOpsQueue l = []) : l = [] := by
  have hlen := (sortOpsQueue_perm l).length_eq
  rw [h] at hlen
  exact List.length_eq_zero.mp hlen.symm

theorem ExecuteOperations_outcomes (Y : Batcher)
    (hst : Y.state = BatcherState.kTransactionPrepare)
    (hcb : Y.flush_callback = true) (hinv : Y.invocations = [])
    (hgs : Y.groups ≠ []) :
    FlushOutcome (Batcher.ExecuteOperations Y true) := by
  rcases ExecuteOperations_cases Y true hst with ⟨hsus, heq⟩ | ⟨e1, e2, e3, e4, e5⟩
  · right; left
    rw [heq]
    obtain ⟨st, hpend⟩ := prepareSuspends_pending hsus
    exact ⟨hst, hcb, hinv, ⟨st, hpend⟩, hgs⟩
  · right; right
    refine ⟨e1, e4.trans hcb, e5.trans hinv, e2, ?_⟩
    rw [e3]
    exact List.length_pos.mpr hgs

theorem AllLookupsDone_cases (cfg : Config) (b : Batcher)
    (hst : b.state = BatcherState.kResolvingTablets) (hcb : b.flush_callback = true)
    (hinv : b.invocations = []) :
    FlushOutcome (Batcher.AllLookupsDone cfg b) := by
  unfold Batcher.AllLookupsDone
  rw [if_neg (by simp [hst])]
  dsimp only
  split
  · rename_i hqe
    split
    · exact Or.inl (FlushFinished_done' _ hcb hinv)
    · rename_i hne
      split
      · rename_i st hbg
        exact Or.inl (Abort_done' st _ hcb hinv)
      · rename_i gs hbg
        apply ExecuteOperations_outcomes
        · rfl
        · exact hcb
        · exact hinv
        · exact buildGroups_ne_nil (fun hnil => hne (sortOpsQueue_eq_nil hnil)) hbg
  · rename_i hqe
    split
    · apply Or.inl
      apply FlushFinished_done'
      · dsimp only
        rw [(eraseLoop_preserves cfg _ _ _).1]
        exact hcb
      · dsimp only
        rw [(eraseLoop_preserves cfg _ _ _).2.1]
        exact hinv
    · rename_i hne
      split
      · rename_i st hbg
        apply Or.inl
        apply Abort_done'
        · dsimp only
          rw [(eraseLoop_preserves cfg _ _ _).1]
          exact hcb
        · dsimp only
          rw [(eraseLoop_preserves cfg _ _ _).2.1]
          exact hinv
      · rename_i gs hbg
        apply ExecuteOperations_outcomes
        · dsimp only
          rw [(eraseLoop_preserves cfg _ _ _).2.2.2]
        · dsimp only
          rw [(eraseLoop_preserves cfg _ _ _).1]
          exact hcb
        · dsimp only
          rw [(eraseLoop_preserves cfg _ _ _).2.1]
          exact hinv
        · exact buildGroups_ne_nil (fun hnil => hne (sortOpsQueue_eq_nil hnil)) hbg

theorem DeliverLookups_zero (cfg : Config) (env : FlushEnv) (b : Batcher) (idx : Nat) :
    DeliverLookups cfg env b idx 0 = b := rfl

/-- The per-op update a lookup continuation applies (batcher.cc:316-320). -/
def lookupUpdate (res : Except Status Tablet) (op : InFlightOp) : InFlightOp :=
  match res with
  | Except.ok t => { op with tablet := some t }
  | Except.error e => { op with error := e }

theorem TabletLookupFinished_step (cfg : Config) (b : Batcher) (idx : Nat)
    (res : Except Status Tablet) (h : 2 ≤ b.outstanding_lookups) :
    Batcher.TabletLookupFinished cfg b idx res =
      { b with ops_queue := modifyAt b.ops_queue idx (lookupUpdate res),
               outstanding_lookups := b.outstanding_lookups - 1 } := by
  unfold Batcher.TabletLookupFinished
  dsimp only
  rw [if_neg (by omega)]
  rfl

theorem TabletLookupFinished_last (cfg : Config) (b : Batcher) (idx : Nat)
    (res : Except Status Tablet) (h : b.outstanding_lookups = 1) :
    Batcher.TabletLookupFinished cfg b idx res =
      Batcher.AllLookupsDone cfg
        { b with ops_queue := modifyAt b.ops_queue idx (lookupUpdate res),
                 outstanding_lookups := b.outstanding_lookups - 1 } := by
  unfold Batcher.TabletLookupFinished
  dsimp only
  rw [if_pos (by omega)]
  rfl

theorem DeliverLookups_cases (cfg : Config) (env : FlushEnv) :
    ∀ (r : Nat) (b : Batcher) (idx : Nat),
      b.state = BatcherState.kResolvingTablets → b.flush_callback = true →
      b.invocations = [] → b.outstanding_lookups = r → 1 ≤ r →
      FlushOutcome (DeliverLookups cfg env b idx r) := by
  intro r
  induction r with
  | zero => intro b idx _ _ _ _ h; omega
  | succ r' ih =>
    intro b idx hst hcb hinv hout _
    unfold DeliverLookups
    dsimp only
    cases Nat.eq_zero_or_pos r' with
    | inl hz =>
      subst hz
      rw [DeliverLookups_zero, TabletLookupFinished_last cfg b idx _ (by omega)]
      apply AllLookupsDone_cases
      · exact hst
      · exact hcb
      · exact hinv
    | inr hpos =>
      rw [TabletLookupFinished_step cfg b idx _ (by omega)]
      apply ih
      · exact hst
      · exact hcb
      · exact hinv
      · dsimp only
        omega
      · exact hpos

theorem ProcessRpcStatus_preserves (b : Batcher) (rpc : Rpc) (s : Status) :
    (Batcher.ProcessRpcStatus b rpc s).flush_callback = b.flush_callback ∧
    (Batcher.ProcessRpcStatus b rpc s).invocations = b.invocations ∧
    (Batcher.ProcessRpcStatus b rpc s).outstanding_rpcs = b.outstanding_rpcs ∧
    (Batcher.ProcessRpcStatus b rpc s).transaction = b.transaction ∧
    (Batcher.ProcessRpcStatus b rpc s).read_point = b.read_point := by
  unfold Batcher.ProcessRpcStatus
  split
  · exact ⟨rfl, rfl, rfl, rfl, rfl⟩
  · split <;> exact ⟨rfl, rfl, rfl, rfl, rfl⟩

theorem ProcessWriteResponse_preserves (b : Batcher) (rpc : Rpc) (s : Status)
    (resp : WriteResponse) :
    (Batcher.ProcessWriteResponse b rpc s resp).flush_callback = b.flush_callback ∧
    (Batcher.ProcessWriteResponse b rpc s resp).invocations = b.invocations ∧
    (Batcher.ProcessWriteResponse b rpc s resp).outstanding_rpcs = b.outstanding_rpcs := by
  unfold Batcher.ProcessWriteResponse
  dsimp only
  obtain ⟨p1, p2, p3, _, _⟩ := ProcessRpcStatus_preserves b rpc s
  split <;> exact ⟨p1, p2, p3⟩

theorem ProcessReadResponse_preserves (b : Batcher) (rpc : Rpc) (s : Status) :
    (Batcher.ProcessReadResponse b rpc s).flush_callback = b.flush_callback ∧
    (Batcher.ProcessReadResponse b rpc s).invocations = b.invocations ∧
    (Batcher.ProcessReadResponse b rpc s).outstanding_rpcs = b.outstanding_rpcs := by
  obtain ⟨p1, p2, p3, _, _⟩ := ProcessRpcStatus_preserves b rpc s
  exact ⟨p1, p2, p3⟩

theorem foldCombine_preserves (cfg : Config) (l : List InFlightOp) :
    ∀ (b : Batcher),
      (l.foldl (fun acc op => if op.error.isOk then acc
          else Batcher.CombineError cfg acc op) b).flush_callback = b.flush_callback ∧
      (l.foldl (fun acc op => if op.error.isOk then acc
          else Batcher.CombineError cfg acc op) b).invocations = b.invocations := by
  induction l with
  | nil => intro b; exact ⟨rfl, rfl⟩
  | cons o rest ih =>
    intro b
    rw [List.foldl_cons]
    by_cases ho : o.error.isOk = true
    · rw [if_pos ho]
      exact ih b
    · rw [if_neg ho]
      obtain ⟨h1, h2⟩ := ih (Batcher.CombineError cfg b o)
      obtain ⟨g1, g2, _, _⟩ := CombineError_preserves cfg b o
      exact ⟨h1.trans g1, h2.trans g2⟩

theorem Flushed_step (cfg : Config) (b : Batcher) (s : Status)
    (h : 2 ≤ b.outstanding_rpcs) :
    (Batcher.Flushed cfg b s).flush_callback = b.flush_callback ∧
    (Batcher.Flushed cfg b s).invocations = b.invocations ∧
    (Batcher.Flushed cfg b s).outstanding_rpcs = b.outstanding_rpcs - 1 := by
  unfold Batcher.Flushed
  dsimp only
  rw [if_neg (by omega)]
  exact ⟨rfl, rfl, rfl⟩

theorem Flushed_last (cfg : Config) (b : Batcher) (s : Status)
    (h : b.outstanding_rpcs = 1) (hcb : b.flush_callback = true)
    (hinv : b.invocations = []) :
    (Batcher.Flushed cfg b s).flush_callback = false ∧
    (Batcher.Flushed cfg b s).invocations.length = 1 ∧
    ((Batcher.Flushed cfg b s).state = BatcherState.kComplete ∨
     (Batcher.Flushed cfg b s).state = BatcherState.kAborted) := by
  unfold Batcher.Flushed
  dsimp only
  rw [if_pos (by omega)]
  apply FlushFinished_done'
  · rw [(foldCombine_preserves cfg _ _).1]
    exact hcb
  · rw [(foldCombine_preserves cfg _ _).2]
    exact hinv

theorem RpcDone_step (cfg : Config) (env : FlushEnv) (b : Batcher) (idx : Nat)
    (h : 2 ≤ b.outstanding_rpcs) :
    (RpcDone cfg env b idx).flush_callback = b.flush_callback ∧
    (RpcDone cfg env b idx).invocations = b.invocations ∧
    (RpcDone cfg env b idx).outstanding_rpcs = b.outstanding_rpcs - 1 := by
  unfold RpcDone
  dsimp only
  split
  · obtain ⟨p1, p2, p3⟩ := ProcessWriteResponse_preserves b
      ((b.rpcs.drop idx).headD dummyRpc) (env.outcomes idx).rpc_status
      (env.outcomes idx).response
    obtain ⟨f1, f2, f3⟩ := Flushed_step cfg _ (env.outcomes idx).rpc_status
      (by rw [p3]; omega)
    exact ⟨f1.trans p1, f2.trans p2, by rw [f3, p3]⟩
  · obtain ⟨p1, p2, p3⟩ := ProcessReadResponse_preserves b
      ((b.rpcs.drop idx).headD dummyRpc) (env.outcomes idx).rpc_status
    obtain ⟨f1, f2, f3⟩ := Flushed_step cfg _ (env.outcomes idx).rpc_status
      (by rw [p3]; omega)
    exact ⟨f1.trans p1, f2.trans p2, by rw [f3, p3]⟩

theorem RpcDone_last (cfg : Config) (env : FlushEnv) (b : Batcher) (idx : Nat)
    (h : b.outstanding_rpcs = 1) (hcb : b.flush_callback = true)
    (hinv : b.invocations = []) :
    (RpcDone cfg env b idx).flush_callback = false ∧
    (RpcDone cfg env b idx).invocations.length = 1 ∧
    ((RpcDone cfg env b idx).state = BatcherState.kComplete ∨
     (RpcDone cfg env b idx).state = BatcherState.kAborted) := by
  unfold RpcDone
  dsimp only
  split
  · obtain ⟨p1, p2, p3⟩ := ProcessWriteResponse_preserves b
      ((b.rpcs.drop idx).headD dummyRpc) (env.outcomes idx).rpc_status
      (env.outcomes idx).response
    exact Flushed_last cfg _ (env.outcomes idx).rpc_status (by rw [p3, h])
      (p1.trans hcb) (p2.trans hinv)
  · obtain ⟨p1, p2, p3⟩ := ProcessReadResponse_preserves b
      ((b.rpcs.drop idx).headD dummyRpc) (env.outcomes idx).rpc_status
    exact Flushed_last cfg _ (env.outcomes idx).rpc_status (by rw [p3, h])
      (p1.trans hcb) (p2.trans hinv)

theorem DeliverResponsesFrom_cases (cfg : Config) (env : FlushEnv) :
    ∀ (r : Nat) (b : Batcher) (idx : Nat),
      b.flush_callback = true → b.invocations = [] →
      b.outstanding_rpcs = r → 1 ≤ r →
      (DeliverResponsesFrom cfg env b idx r).flush_callback = false ∧
      (DeliverResponsesFrom cfg env b idx r).invocations.length = 1 ∧
      ((DeliverResponsesFrom cfg env b idx r).state = BatcherState.kComplete ∨
       (DeliverResponsesFrom cfg env b idx r).state = BatcherState.kAborted) := by
  intro r
  induction r with
  | zero => intro b idx _ _ _ h; omega
  | succ r' ih =>
    intro b idx hcb hinv hout _
    unfold DeliverResponsesFrom
    cases Nat.eq_zero_or_pos r' with
    | inl hz =>
      subst hz
      exact RpcDone_last cfg env b idx (by omega) hcb hinv
    | inr hpos =>
      obtain ⟨s1, s2, s3⟩ := RpcDone_step cfg env b idx (by omega)
      exact ih (RpcDone cfg env b idx) (idx + 1) (s1.trans hcb) (s2.trans hinv)
        (by omega) hpos

/-- C3: along every execution path of one flush attempt on a fresh batcher
with at least one pending op — synchronous partition-key failure, all ops
errored and erased (empty queue), version-mismatch or transaction-prepare
abort, or the RPC rendezvous — the user callback stored by `FlushAsync` runs
exactly once, and the callback slot is empty (cleared) afterwards; the
batcher ends in a terminal state. -/
theorem C3_callback_exactly_once (cfg : Config) (env : FlushEnv) (retry : Bool)
    (b : Batcher)
    (hst : b.state = BatcherState.kGatheringOps) (hops : b.ops ≠ [])
    (hq : b.ops_queue = []) (hinv : b.invocations = []) :
    (RunFlush cfg env retry b).flush_callback = false ∧
    (RunFlush cfg env retry b).invocations.length = 1 ∧
    ((RunFlush cfg env retry b).state = BatcherState.kComplete ∨
     (RunFlush cfg env retry b).state = BatcherState.kAborted) := by
  unfold RunFlush
  dsimp only
  rcases FlushAsync_cases retry b hst hq hinv with ⟨a1, a2, a3, a4, a5⟩ | ⟨f1, f2, f3⟩
  · rw [if_neg (by rw [a1]; simp)]
    have hFO := DeliverLookups_cases cfg env
      ((Batcher.FlushAsync retry b).ops_queue.length) (Batcher.FlushAsync retry b) 0
      a1 a2 a3 (by rw [a5, a4])
      (by rw [a4]; exact List.length_pos.mpr hops)
    rcases hFO with ⟨d1, d2, d3⟩ | ⟨t1, t2, t3, ⟨st', t4⟩, t5⟩ | ⟨r1, r2, r3, r4, r5⟩
    · rcases d3 with h | h
      · rw [h]
        dsimp only
        rw [if_neg (by rw [h]; decide)]
        exact ⟨d1, d2, Or.inl h⟩
      · rw [h]
        dsimp only
        rw [if_neg (by rw [h]; decide)]
        exact ⟨d1, d2, Or.inr h⟩
    · rw [t1, t4]
      dsimp only
      by_cases hok : st'.isOk = true
      · rw [show Batcher.TransactionReady st'
            (DeliverLookups cfg env (Batcher.FlushAsync retry b) 0
              (Batcher.FlushAsync retry b).ops_queue.length) =
          Batcher.ExecuteOperations
            (DeliverLookups cfg env (Batcher.FlushAsync retry b) 0
              (Batcher.FlushAsync retry b).ops_queue.length) false from by
          unfold Batcher.TransactionReady
          rw [if_pos hok]]
        rcases ExecuteOperations_cases
          (DeliverLookups cfg env (Batcher.FlushAsync retry b) 0
            (Batcher.FlushAsync retry b).ops_queue.length) false t1 with
          ⟨hsus, _⟩ | ⟨e1, e2, e3, e4, e5⟩
        · rw [prepareSuspends_false] at hsus
          exact Bool.noConfusion hsus
        · rw [if_pos e1]
          unfold DeliverResponses
          apply DeliverResponsesFrom_cases
          · exact e4.trans t2
          · exact e5.trans t3
          · exact e2
          · rw [e3]
            exact List.length_pos.mpr t5
      · rw [show Batcher.TransactionReady st'
            (DeliverLookups cfg env (Batcher.FlushAsync retry b) 0
              (Batcher.FlushAsync retry b).ops_queue.length) =
          Batcher.Abort st'
            (DeliverLookups cfg env (Batcher.FlushAsync retry b) 0
              (Batcher.FlushAsync retry b).ops_queue.length) from by
          unfold Batcher.TransactionReady
          rw [if_neg hok]]
        obtain ⟨q1, q2, q3⟩ := Abort_done' st'
          (DeliverLookups cfg env (Batcher.FlushAsync retry b) 0
            (Batcher.FlushAsync retry b).ops_queue.length) t2 t3
        rw [if_neg (by rcases q3 with h | h <;> rw [h] <;> decide)]
        exact ⟨q1, q2, q3⟩
    · rw [r1]
      dsimp only
      rw [if_pos r1]
      unfold DeliverResponses
      apply DeliverResponsesFrom_cases
      · exact r2
      · exact r3
      · exact r4
      · exact r5
  · rw [if_pos f3]
    exact ⟨f1, f2, f3⟩

theorem C3_witness :
    (({ ops := [sampleWriteOp] } : Batcher).state = BatcherState.kGatheringOps) ∧
    (({ ops := [sampleWriteOp] } : Batcher).ops ≠ []) ∧
    (({ ops := [sampleWriteOp] } : Batcher).ops_queue = []) ∧
    (({ ops := [sampleWriteOp] } : Batcher).invocations = []) ∧
    ((RunFlush sampleCfg sampleEnv false { ops := [sampleWriteOp] }).flush_callback =
        false ∧
      (RunFlush sampleCfg sampleEnv false { ops := [sampleWriteOp] }).invocations.length =
        1 ∧
      ((RunFlush sampleCfg sampleEnv false { ops := [sampleWriteOp] }).state =
          BatcherState.kComplete ∨
        (RunFlush sampleCfg sampleEnv false { ops := [sampleWriteOp] }).state =
          BatcherState.kAborted)) :=
  ⟨rfl, by decide, rfl, rfl,
   C3_callback_exactly_once sampleCfg sampleEnv false { ops := [sampleWriteOp] }
     rfl (by decide) rfl rfl⟩
